import Mathlib

/-!
Shallow embedding of the shader-generator frontend
(`src/components/ShaderGenerator.tsx`).

JavaScript strings are modelled as `List Char`; the handful of string
primitives the component uses (`trim`, `indexOf`, `includes`, `substring`,
first-occurrence `replace`, `split("\n")`, `join("\n")`, `splice`,
`findIndex`) are defined below with JavaScript's semantics.  The one regular
expression the component applies to shader text,
`/precision\s+\w+\s+float\s*;/`, is implemented as a deterministic
maximal-munch matcher: every repeated character class in that pattern
(`\s+`, `\w+`, `\s*`) is disjoint from the first character of what must
follow it (a word character after `\s+`, a whitespace character after
`\w+`, `f`/`;` after the classes), so greedy matching without backtracking
computes exactly the regex's leftmost match.

JavaScript numbers are modelled as elements of an arbitrary field (the
theorems instantiate it with `ℝ`); `Math.cos`, `Math.sin` and `Math.PI`
are passed in as parameters.
-/

namespace ShaderGen

/-- ASCII whitespace, as recognised by JavaScript's `trim` and `\s`. -/
def isJsSpace (c : Char) : Bool :=
  c = ' ' || c = '\t' || c = '\n' || c = '\r' || c = '\x0b' || c = '\x0c'

/-- JavaScript's `\w` character class (ASCII letters, digits, underscore). -/
def isWordChar (c : Char) : Bool :=
  c.isAlphanum || c = '_'

/-- JavaScript `String.prototype.trim`. -/
def jsTrim (s : List Char) : List Char :=
  (((s.dropWhile isJsSpace).reverse.dropWhile isJsSpace)).reverse

/-- JavaScript `s.indexOf(pat)`: position of the first occurrence of `pat`
in `s` (`none` for JavaScript's `-1`). -/
def jsIndexOf : List Char → List Char → Option Nat
  | [], pat => if pat.isPrefixOf ([] : List Char) then some 0 else none
  | ch :: t, pat =>
    if pat.isPrefixOf (ch :: t) then some 0
    else (jsIndexOf t pat).map (· + 1)

/-- JavaScript `s.includes(pat)`. -/
def jsIncludes (s pat : List Char) : Bool :=
  (jsIndexOf s pat).isSome

/-- JavaScript `s.replace(pat, "")` with a plain-string pattern: removes the
first occurrence of `pat`, if any. -/
def replaceFirstEmpty (s pat : List Char) : List Char :=
  match jsIndexOf s pat with
  | none => s
  | some i => s.take i ++ s.drop (i + pat.length)

/-- JavaScript `s.substring(a, b)`: both indices are clamped to the string
length and swapped when `a > b`. -/
def jsSubstring (s : List Char) (a b : Nat) : List Char :=
  let a' := min a s.length
  let b' := min b s.length
  (s.drop (min a' b')).take (max a' b' - min a' b')

/-- JavaScript `s.split("\n")`. -/
def splitOnNl : List Char → List (List Char)
  | [] => [[]]
  | ch :: t =>
    match splitOnNl t with
    | [] => [[ch]]
    | g :: gs => if ch = '\n' then [] :: g :: gs else (ch :: g) :: gs

/-- JavaScript `lines.join("\n")`. -/
def joinNl : List (List Char) → List Char
  | [] => []
  | [l] => l
  | l :: g :: gs => l ++ '\n' :: joinNl (g :: gs)

/-- JavaScript `lines.splice(k, 0, x)`: insert `x` at position `k`. -/
def spliceInsert (l : List (List Char)) (k : Nat) (x : List Char) : List (List Char) :=
  l.take k ++ x :: l.drop k

/-- Consume a literal at the front of `s`, returning the rest. -/
def eatLit (pat s : List Char) : Option (List Char) :=
  if pat.isPrefixOf s then some (s.drop pat.length) else none

/-- Consume one-or-more characters satisfying `p` (greedy), returning the
rest. -/
def eatPlus (p : Char → Bool) : List Char → Option (List Char)
  | [] => none
  | ch :: t => if p ch then some (t.dropWhile p) else none

/-- Match of `/precision\s+\w+\s+float\s*;/` anchored at the front of `s`:
returns the length of the matched text.  Maximal-munch is exact for this
pattern (see the header comment). -/
def matchPrecisionLen (s : List Char) : Option Nat :=
  (eatLit ("precision".toList) s).bind fun r1 =>
  (eatPlus isJsSpace r1).bind fun r2 =>
  (eatPlus isWordChar r2).bind fun r3 =>
  (eatPlus isJsSpace r3).bind fun r4 =>
  (eatLit ("float".toList) r4).bind fun r5 =>
  (eatLit [';'] (r5.dropWhile isJsSpace)).map fun r7 =>
  s.length - r7.length

/-- `s.match(/precision\s+\w+\s+float\s*;/)`: leftmost match as
(position, length). -/
def findPrecisionAux : List Char → Option (Nat × Nat)
  | [] => none
  | ch :: t =>
    match matchPrecisionLen (ch :: t) with
    | some n => some (0, n)
    | none => (findPrecisionAux t).map fun pr => (pr.1 + 1, pr.2)

def vertexMarker : List Char := "// Vertex Shader".toList

def fragmentMarker : List Char := "// Fragment Shader".toList

/-- The two `throw new Error(...)` sites of the extractors. -/
inductive ParseFailure where
  | missingMarker (msg : List Char)
deriving DecidableEq

/-- `extractVertexShader` (ShaderGenerator.tsx, lines 136-146). -/
def extractVertexShader (code : List Char) : Except ParseFailure (List Char) :=
  match jsIndexOf code vertexMarker, jsIndexOf code fragmentMarker with
  | some vertexStart, some fragmentStart =>
    .ok (jsTrim (replaceFirstEmpty (jsSubstring code vertexStart fragmentStart) vertexMarker))
  | _, _ =>
    .error (.missingMarker ("Could not find vertex or fragment shader markers".toList))

/-- `extractFragmentShader` (lines 148-157); one-argument `substring` is
`drop`. -/
def extractFragmentShader (code : List Char) : Except ParseFailure (List Char) :=
  match jsIndexOf code fragmentMarker with
  | some fragmentStart =>
    .ok (jsTrim (replaceFirstEmpty (code.drop fragmentStart) fragmentMarker))
  | none =>
    .error (.missingMarker ("Could not find fragment shader marker".toList))

/-- The bundle-splitting step of `renderShader` (lines 88-89): vertex
extraction, then fragment extraction, propagating the first failure. -/
def splitBundle (code : List Char) : Except ParseFailure (List Char × List Char) := do
  let v ← extractVertexShader code
  let f ← extractFragmentShader code
  .ok (v, f)

/-- Match of `/\/\/ GEOMETRY:\s*(\w+)/` anchored at the front of `s`:
returns the captured word. -/
def matchGeometryAt (s : List Char) : Option (List Char) :=
  (eatLit ("// GEOMETRY:".toList) s).bind fun r1 =>
  let w := (r1.dropWhile isJsSpace).takeWhile isWordChar
  if w.isEmpty then none else some w

def findGeometryAux : List Char → Option (List Char)
  | [] => none
  | ch :: t =>
    match matchGeometryAt (ch :: t) with
    | some w => some w
    | none => findGeometryAux t

/-- `extractGeometryType` (lines 159-162). -/
def extractGeometryType (code : List Char) : List Char :=
  match findGeometryAux code with
  | some w => w
  | none => "cube".toList

def precisionWord : List Char := "precision".toList

def defaultPrecision : List Char := "precision mediump float;\n".toList

def timeId : List Char := "time".toList

def uniformTimeSig : List Char := "uniform float time".toList

def uniformTimeDecl : List Char := "uniform float time;\n".toList

def resolutionId : List Char := "resolution".toList

def uniformResolutionSig : List Char := "uniform vec2 resolution".toList

def uniformResolutionDecl : List Char := "uniform vec2 resolution;\n".toList

def vNormalId : List Char := "vNormal".toList

def varyingVNormalSig : List Char := "varying vec3 vNormal".toList

def varyingVNormalDecl : List Char := "varying vec3 vNormal;\n".toList

def vPositionId : List Char := "vPosition".toList

def varyingVPositionSig : List Char := "varying vec3 vPosition".toList

def varyingVPositionDecl : List Char := "varying vec3 vPosition;\n".toList

/-- The `uniformDeclarations` string built by `fixShaderIssues`
(lines 187-208), as a function of the four `needs*` flags, in the fixed
order time, resolution, vNormal, vPosition. -/
def uniformDeclarationsOf (needsTime needsResolution needsVNormal needsVPosition : Bool) :
    List Char :=
  (if needsTime then uniformTimeDecl else []) ++
  (if needsResolution then uniformResolutionDecl else []) ++
  (if needsVNormal then varyingVNormalDecl else []) ++
  (if needsVPosition then varyingVPositionDecl else [])

/-- `fixShaderIssues` (lines 164-228): trim; force a precision statement to
the top (prepending a default one when the text has no `precision` at all,
relocating the regex match otherwise); then insert declarations for the
recognised identifiers that are used without their declaration, as one
block after the first line containing `precision`. -/
def fixShaderIssues (fragmentShaderCode : List Char) : List Char :=
  let fixedCode := jsTrim fragmentShaderCode
  let fixedCode :=
    if jsIncludes fixedCode precisionWord = false then
      defaultPrecision ++ fixedCode
    else
      (findPrecisionAux fixedCode).elim fixedCode fun pn =>
        let precisionStatement := (fixedCode.drop pn.1).take pn.2
        let removed := replaceFirstEmpty fixedCode precisionStatement
        precisionStatement ++ '\n' :: jsTrim removed
  let needsTime := jsIncludes fixedCode timeId && !jsIncludes fixedCode uniformTimeSig
  let needsResolution :=
    jsIncludes fixedCode resolutionId && !jsIncludes fixedCode uniformResolutionSig
  let needsVNormal :=
    jsIncludes fixedCode vNormalId && !jsIncludes fixedCode varyingVNormalSig
  let needsVPosition :=
    jsIncludes fixedCode vPositionId && !jsIncludes fixedCode varyingVPositionSig
  let uniformDeclarations :=
    uniformDeclarationsOf needsTime needsResolution needsVNormal needsVPosition
  if uniformDeclarations.isEmpty then fixedCode
  else
    ((splitOnNl fixedCode).findIdx? (fun line => jsIncludes line precisionWord)).elim
      (uniformDeclarations ++ fixedCode) fun precisionLineIndex =>
      joinNl (spliceInsert (splitOnNl fixedCode) (precisionLineIndex + 1)
        (jsTrim uniformDeclarations))

/-! ## Geometry generators (lines 306-764)

`cos`, `sin`, `pi` stand for `Math.cos`, `Math.sin`, `Math.PI`.  Array
reads `vertices[k]` are `jsGet`; every read performed by the generators is
in bounds (proved below), so the out-of-bounds default is never produced. -/

/-- JavaScript indexed array read. -/
def jsGet {α : Type} [Field α] (l : List α) (n : Nat) : α :=
  l.getD n 0

/-- The `case "cube"` vertex literal of `getGeometryVertices`. -/
def cubeVertices {α : Type} [Field α] : List α :=
  [-1, -1, 1, 1, -1, 1, 1, 1, 1, -1, -1, 1, 1, 1, 1, -1, 1, 1,
   -1, -1, -1, -1, 1, -1, 1, 1, -1, -1, -1, -1, 1, 1, -1, 1, -1, -1,
   -1, 1, -1, -1, 1, 1, 1, 1, 1, -1, 1, -1, 1, 1, 1, 1, 1, -1,
   -1, -1, -1, 1, -1, -1, 1, -1, 1, -1, -1, -1, 1, -1, 1, -1, -1, 1,
   1, -1, -1, 1, 1, -1, 1, 1, 1, 1, -1, -1, 1, 1, 1, 1, -1, 1,
   -1, -1, -1, -1, -1, 1, -1, 1, 1, -1, -1, -1, -1, 1, 1, -1, 1, -1]

/-- The `default` vertex literal of `getGeometryVertices`. -/
def defaultCaseVertices {α : Type} [Field α] : List α :=
  [-1, -1, 1, 1, -1, 1, 1, 1, 1, -1, -1, 1, 1, 1, 1, -1, 1, 1, -1, -1,
   -1, -1, 1, -1, 1, 1, -1, -1, -1, -1, 1, 1, -1, 1, -1, -1, -1, 1, -1,
   -1, 1, 1, 1, 1, 1, -1, 1, -1, 1, 1, 1, 1, 1, -1, -1, -1, -1, 1, -1,
   -1, 1, -1, 1, -1, -1, -1, 1, -1, 1, -1, -1, 1, 1, -1, -1, 1, 1, -1, 1,
   1, 1, 1, -1, -1, 1, 1, 1, 1, -1, 1, -1, -1, -1, -1, -1, 1, -1, 1, 1,
   -1, -1, -1, -1, 1, 1, -1, 1, -1]

/-- The `case "plane"` vertex literal. -/
def planeVertices {α : Type} [Field α] : List α :=
  [-2, 0, -2, 2, 0, -2, 2, 0, 2, -2, 0, -2, 2, 0, 2, -2, 0, 2]

/-- The `case "cube"` normal literal of `getGeometryNormals`. -/
def cubeNormals {α : Type} [Field α] : List α :=
  [0, 0, 1, 0, 0, 1, 0, 0, 1, 0, 0, 1, 0, 0, 1, 0, 0, 1,
   0, 0, -1, 0, 0, -1, 0, 0, -1, 0, 0, -1, 0, 0, -1, 0, 0, -1,
   0, 1, 0, 0, 1, 0, 0, 1, 0, 0, 1, 0, 0, 1, 0, 0, 1, 0,
   0, -1, 0, 0, -1, 0, 0, -1, 0, 0, -1, 0, 0, -1, 0, 0, -1, 0,
   1, 0, 0, 1, 0, 0, 1, 0, 0, 1, 0, 0, 1, 0, 0, 1, 0, 0,
   -1, 0, 0, -1, 0, 0, -1, 0, 0, -1, 0, 0, -1, 0, 0, -1, 0, 0]

/-- The `default` normal literal of `getGeometryNormals`. -/
def defaultCaseNormals {α : Type} [Field α] : List α :=
  [0, 0, 1, 0, 0, 1, 0, 0, 1, 0, 0, 1, 0, 0, 1, 0, 0, 1, 0, 0, -1, 0, 0,
   -1, 0, 0, -1, 0, 0, -1, 0, 0, -1, 0, 0, -1, 0, 1, 0, 0, 1, 0, 0, 1, 0,
   0, 1, 0, 0, 1, 0, 0, 1, 0, 0, -1, 0, 0, -1, 0, 0, -1, 0, 0, -1, 0, 0,
   -1, 0, 0, -1, 0, 1, 0, 0, 1, 0, 0, 1, 0, 0, 1, 0, 0, 1, 0, 0, 1, 0, 0,
   -1, 0, 0, -1, 0, 0, -1, 0, 0, -1, 0, 0, -1, 0, 0, -1, 0, 0]

/-- The `case "plane"` normal literal. -/
def planeNormals {α : Type} [Field α] : List α :=
  [0, 1, 0, 0, 1, 0, 0, 1, 0, 0, 1, 0, 0, 1, 0, 0, 1, 0]

/-- The `vertices` grid array built by `generateSphere` (lines 387-403). -/
def sphereVertexGrid {α : Type} [Field α] (cos sin : α → α) (pi radius : α)
    (widthSegments heightSegments : Nat) : List α :=
  (List.range (heightSegments + 1)).flatMap fun i =>
    (List.range (widthSegments + 1)).flatMap fun j =>
      let v : α := (i : α) / (heightSegments : α)
      let phi := v * pi
      let u : α := (j : α) / (widthSegments : α)
      let theta := u * pi * 2
      [-radius * cos theta * sin phi, radius * cos phi, radius * sin theta * sin phi]

/-- The triangle-emission loop shared by `generateSphere` and
`generateSphereNormals` (lines 405-449): grid cells emit up to two
triangles, skipping the degenerate one at each pole row. -/
def sphereTriangleWalk {α : Type} [Field α] (grid : List α)
    (widthSegments heightSegments : Nat) : List α :=
  (List.range heightSegments).flatMap fun i =>
    (List.range widthSegments).flatMap fun j =>
      let a := i * (widthSegments + 1) + j
      let b := a + widthSegments + 1
      let cIdx := a + 1
      let d := b + 1
      (if i ≠ 0 then
        [jsGet grid (a * 3), jsGet grid (a * 3 + 1), jsGet grid (a * 3 + 2),
         jsGet grid (b * 3), jsGet grid (b * 3 + 1), jsGet grid (b * 3 + 2),
         jsGet grid (cIdx * 3), jsGet grid (cIdx * 3 + 1), jsGet grid (cIdx * 3 + 2)]
       else []) ++
      (if i ≠ heightSegments - 1 then
        [jsGet grid (b * 3), jsGet grid (b * 3 + 1), jsGet grid (b * 3 + 2),
         jsGet grid (d * 3), jsGet grid (d * 3 + 1), jsGet grid (d * 3 + 2),
         jsGet grid (cIdx * 3), jsGet grid (cIdx * 3 + 1), jsGet grid (cIdx * 3 + 2)]
       else [])

/-- `generateSphere` (lines 382-451). -/
def generateSphere {α : Type} [Field α] (cos sin : α → α) (pi radius : α)
    (widthSegments heightSegments : Nat) : List α :=
  sphereTriangleWalk (sphereVertexGrid cos sin pi radius widthSegments heightSegments)
    widthSegments heightSegments

/-- One pushed (x, y, z) component triple of the `normals` grid of
`generateSphereNormals` (lines 460-473): the parametric direction without
the radius factor. -/
def sphereNormalVec {α : Type} [Field α] (cos sin : α → α) (pi : α)
    (widthSegments heightSegments i j : Nat) : List α :=
  let v : α := (i : α) / (heightSegments : α)
  let phi := v * pi
  let u : α := (j : α) / (widthSegments : α)
  let theta := u * pi * 2
  [-cos theta * sin phi, cos phi, sin theta * sin phi]

/-- Row `i` of that grid (the inner `j` loop). -/
def sphereNormalRow {α : Type} [Field α] (cos sin : α → α) (pi : α)
    (widthSegments heightSegments i : Nat) : List α :=
  (List.range (widthSegments + 1)).flatMap
    (sphereNormalVec cos sin pi widthSegments heightSegments i)

/-- The `normals` grid array built by `generateSphereNormals`
(lines 458-474). -/
def sphereNormalGrid {α : Type} [Field α] (cos sin : α → α) (pi : α)
    (widthSegments heightSegments : Nat) : List α :=
  (List.range (heightSegments + 1)).flatMap
    (sphereNormalRow cos sin pi widthSegments heightSegments)

/-- `generateSphereNormals` (lines 453-522); `radius` is accepted and
unused, as in the source. -/
def generateSphereNormals {α : Type} [Field α] (cos sin : α → α) (pi radius : α)
    (widthSegments heightSegments : Nat) : List α :=
  let _ := radius
  sphereTriangleWalk (sphereNormalGrid cos sin pi widthSegments heightSegments)
    widthSegments heightSegments

/-- The paired bottom/top circle grid of `generateCylinder` (lines 529-542). -/
def cylinderVertexGrid {α : Type} [Field α] (cos sin : α → α) (pi radius height : α)
    (segments : Nat) : List α :=
  let halfHeight := height / 2
  (List.range (segments + 1)).flatMap fun i =>
    let theta := ((i : α) / (segments : α)) * pi * 2
    let x := radius * cos theta
    let z := radius * sin theta
    [x, -halfHeight, z, x, halfHeight, z]

/-- The side-quad triangle loop shared by `generateCylinder` and
`generateCylinderNormals` (lines 544-560). -/
def cylinderTriangleWalk {α : Type} [Field α] (grid : List α) (segments : Nat) : List α :=
  (List.range segments).flatMap fun i =>
    let a := i * 2
    let b := a + 1
    let cIdx := ((i + 1) % segments) * 2
    let d := cIdx + 1
    [jsGet grid (a * 3), jsGet grid (a * 3 + 1), jsGet grid (a * 3 + 2),
     jsGet grid (cIdx * 3), jsGet grid (cIdx * 3 + 1), jsGet grid (cIdx * 3 + 2),
     jsGet grid (b * 3), jsGet grid (b * 3 + 1), jsGet grid (b * 3 + 2),
     jsGet grid (b * 3), jsGet grid (b * 3 + 1), jsGet grid (b * 3 + 2),
     jsGet grid (cIdx * 3), jsGet grid (cIdx * 3 + 1), jsGet grid (cIdx * 3 + 2),
     jsGet grid (d * 3), jsGet grid (d * 3 + 1), jsGet grid (d * 3 + 2)]

/-- `generateCylinder` (lines 524-563). -/
def generateCylinder {α : Type} [Field α] (cos sin : α → α) (pi radius height : α)
    (segments : Nat) : List α :=
  cylinderTriangleWalk (cylinderVertexGrid cos sin pi radius height segments) segments

/-- The bottom/top pushed pair of `generateCylinderNormals`' grid for one
`i` (lines 572-580). -/
def cylinderNormalPair {α : Type} [Field α] (cos sin : α → α) (pi : α)
    (segments i : Nat) : List α :=
  let theta := ((i : α) / (segments : α)) * pi * 2
  let x := cos theta
  let z := sin theta
  [x, 0, z, x, 0, z]

/-- The `normals` grid of `generateCylinderNormals` (lines 570-580). -/
def cylinderNormalGrid {α : Type} [Field α] (cos sin : α → α) (pi : α)
    (segments : Nat) : List α :=
  (List.range (segments + 1)).flatMap (cylinderNormalPair cos sin pi segments)

/-- `generateCylinderNormals` (lines 565-623); `radius` and `height` are
accepted and unused, as in the source. -/
def generateCylinderNormals {α : Type} [Field α] (cos sin : α → α) (pi radius height : α)
    (segments : Nat) : List α :=
  let _ := radius
  let _ := height
  cylinderTriangleWalk (cylinderNormalGrid cos sin pi segments) segments

/-- The `vertices` grid of `generateTorus` (lines 631-645). -/
def torusVertexGrid {α : Type} [Field α] (cos sin : α → α) (pi majorRadius minorRadius : α)
    (majorSegments minorSegments : Nat) : List α :=
  (List.range (majorSegments + 1)).flatMap fun i =>
    let u := ((i : α) / (majorSegments : α)) * pi * 2
    (List.range (minorSegments + 1)).flatMap fun j =>
      let v := ((j : α) / (minorSegments : α)) * pi * 2
      [(majorRadius + minorRadius * cos v) * cos u,
       minorRadius * sin v,
       (majorRadius + minorRadius * cos v) * sin u]

/-- The quad triangle loop shared by `generateTorus` and
`generateTorusNormals` (lines 647-687). -/
def torusTriangleWalk {α : Type} [Field α] (grid : List α)
    (majorSegments minorSegments : Nat) : List α :=
  (List.range majorSegments).flatMap fun i =>
    (List.range minorSegments).flatMap fun j =>
      let a := i * (minorSegments + 1) + j
      let b := a + minorSegments + 1
      let cIdx := a + 1
      let d := b + 1
      [jsGet grid (a * 3), jsGet grid (a * 3 + 1), jsGet grid (a * 3 + 2),
       jsGet grid (b * 3), jsGet grid (b * 3 + 1), jsGet grid (b * 3 + 2),
       jsGet grid (cIdx * 3), jsGet grid (cIdx * 3 + 1), jsGet grid (cIdx * 3 + 2),
       jsGet grid (b * 3), jsGet grid (b * 3 + 1), jsGet grid (b * 3 + 2),
       jsGet grid (d * 3), jsGet grid (d * 3 + 1), jsGet grid (d * 3 + 2),
       jsGet grid (cIdx * 3), jsGet grid (cIdx * 3 + 1), jsGet grid (cIdx * 3 + 2)]

/-- `generateTorus` (lines 625-690). -/
def generateTorus {α : Type} [Field α] (cos sin : α → α) (pi majorRadius minorRadius : α)
    (majorSegments minorSegments : Nat) : List α :=
  torusTriangleWalk (torusVertexGrid cos sin pi majorRadius minorRadius majorSegments minorSegments)
    majorSegments minorSegments

/-- One pushed (nx, ny, nz) triple of `generateTorusNormals`' grid
(lines 700-718): the tube direction obtained by subtracting the ring
centre and dividing by the minor radius. -/
def torusNormalVec {α : Type} [Field α] (cos sin : α → α) (pi majorRadius minorRadius : α)
    (majorSegments minorSegments i j : Nat) : List α :=
  let u := ((i : α) / (majorSegments : α)) * pi * 2
  let v := ((j : α) / (minorSegments : α)) * pi * 2
  let centerX := majorRadius * cos u
  let centerZ := majorRadius * sin u
  let x := (majorRadius + minorRadius * cos v) * cos u
  let y := minorRadius * sin v
  let z := (majorRadius + minorRadius * cos v) * sin u
  [(x - centerX) / minorRadius, y / minorRadius, (z - centerZ) / minorRadius]

/-- Ring `i` of that grid (the inner `j` loop). -/
def torusNormalRow {α : Type} [Field α] (cos sin : α → α) (pi majorRadius minorRadius : α)
    (majorSegments minorSegments i : Nat) : List α :=
  (List.range (minorSegments + 1)).flatMap
    (torusNormalVec cos sin pi majorRadius minorRadius majorSegments minorSegments i)

/-- The `normals` grid of `generateTorusNormals` (lines 698-719). -/
def torusNormalGrid {α : Type} [Field α] (cos sin : α → α) (pi majorRadius minorRadius : α)
    (majorSegments minorSegments : Nat) : List α :=
  (List.range (majorSegments + 1)).flatMap
    (torusNormalRow cos sin pi majorRadius minorRadius majorSegments minorSegments)

/-- `generateTorusNormals` (lines 692-764). -/
def generateTorusNormals {α : Type} [Field α] (cos sin : α → α) (pi majorRadius minorRadius : α)
    (majorSegments minorSegments : Nat) : List α :=
  torusTriangleWalk
    (torusNormalGrid cos sin pi majorRadius minorRadius majorSegments minorSegments)
    majorSegments minorSegments

/-- `getGeometryVertices` (lines 306-342); the `switch` compares
`type.toLowerCase()` against the five recognised names and falls back to
the `default` cube literal. -/
def getGeometryVertices {α : Type} [Field α] (cos sin : α → α) (pi : α)
    (type : List Char) : List α :=
  let lowered := type.map Char.toLower
  if lowered = "cube".toList then cubeVertices
  else if lowered = "sphere".toList then generateSphere cos sin pi 1 20 20
  else if lowered = "plane".toList then planeVertices
  else if lowered = "cylinder".toList then generateCylinder cos sin pi 1 2 16
  else if lowered = "torus".toList then generateTorus cos sin pi 0.6 0.3 16 16
  else defaultCaseVertices

/-- `getGeometryNormals` (lines 344-379). -/
def getGeometryNormals {α : Type} [Field α] (cos sin : α → α) (pi : α)
    (type : List Char) : List α :=
  let lowered := type.map Char.toLower
  if lowered = "cube".toList then cubeNormals
  else if lowered = "sphere".toList then generateSphereNormals cos sin pi 1 20 20
  else if lowered = "plane".toList then planeNormals
  else if lowered = "cylinder".toList then generateCylinderNormals cos sin pi 1 2 16
  else if lowered = "torus".toList then generateTorusNormals cos sin pi 0.6 0.3 16 16
  else defaultCaseNormals

/-! ## WebGL resource model (for the lifecycle claims)

The component's interaction with the WebGL device is modelled as explicit
state: allocated shader / program / buffer handles and pending
`requestAnimationFrame` registrations.  Calls that do not create or
destroy handles (`shaderSource`, `bindBuffer`, uniform uploads, draw
calls, ...) do not change this state.  Compile and link outcomes are
device-dependent, so they are supplied by a `Device` oracle.  Geometry
buffer contents never influence resource handling, so the pure geometry
functions are instantiated at `ℚ` with dummy trigonometry just to obtain
the vertex count. -/

inductive ShaderStage where
  | vertex
  | fragment
deriving DecidableEq

/-- Outcomes reported by the graphics device. -/
structure Device where
  compileOk : ShaderStage → Bool
  linkOk : Bool

/-- Live device handles and pending frame-callback registrations. -/
structure GLState where
  nextShaderId : Nat
  liveShaders : List Nat
  nextProgramId : Nat
  livePrograms : List Nat
  nextBufferId : Nat
  liveBuffers : List Nat
  nextFrameCbId : Nat
  pendingFrameCbs : List Nat
deriving DecidableEq

/-- The component's refs that the pipeline mutates. -/
structure RefState where
  programRef : Option Nat
  animationRef : Nat
  vertexCountRef : Nat
deriving DecidableEq

def GLState.initial : GLState :=
  ⟨0, [], 0, [], 0, [], 0, []⟩

def RefState.initial : RefState :=
  ⟨none, 0, 36⟩

/-- The errors `renderShader` can throw. -/
inductive RenderErr where
  | parse (e : ParseFailure)
  | compileFailed (stage : ShaderStage)
  | linkFailed
deriving DecidableEq

/-- `createShader` (lines 230-248): allocate, compile; on compile failure
delete the shader just created (`gl.deleteShader(shader)`) and throw.  The
device state is threaded through both outcomes. -/
def createShaderM (dev : Device) (stage : ShaderStage) (st : GLState) :
    Except RenderErr Nat × GLState :=
  let id := st.nextShaderId
  let st := { st with nextShaderId := id + 1, liveShaders := st.liveShaders ++ [id] }
  if dev.compileOk stage then
    (.ok id, st)
  else
    (.error (RenderErr.compileFailed stage),
     { st with liveShaders := st.liveShaders.erase id })

/-- `createProgram` (lines 250-269): allocate, attach both stages, link;
on link failure delete the program (`gl.deleteProgram(program)` only) and
throw. -/
def createProgramM (dev : Device) (st : GLState) : Except RenderErr Nat × GLState :=
  let id := st.nextProgramId
  let st := { st with nextProgramId := id + 1, livePrograms := st.livePrograms ++ [id] }
  if dev.linkOk then
    (.ok id, st)
  else
    (.error RenderErr.linkFailed,
     { st with livePrograms := st.livePrograms.erase id })

/-- `setupGeometry` (lines 271-304): record the vertex count and create
the two vertex buffers.  Buffer contents never influence resource
handling, so the geometry functions are instantiated at `ℚ` with dummy
trigonometry (the buffer lengths do not depend on the function values). -/
def setupGeometryM (geometryType : List Char) (refs : RefState) (st : GLState) :
    RefState × GLState :=
  let vertices := getGeometryVertices (α := ℚ) (fun _ => 0) (fun _ => 0) 0 geometryType
  let refs := { refs with vertexCountRef := vertices.length / 3 }
  let pb := st.nextBufferId
  let st := { st with nextBufferId := pb + 1, liveBuffers := st.liveBuffers ++ [pb] }
  let nb := st.nextBufferId
  let st := { st with nextBufferId := nb + 1, liveBuffers := st.liveBuffers ++ [nb] }
  (refs, st)

/-- `animate` (lines 766-820): when a program is installed, draw and
register the next frame callback (`requestAnimationFrame(animate)`),
storing its id in `animationRef`.  No previous registration is cancelled
here. -/
def animateM (refs : RefState) (st : GLState) : RefState × GLState :=
  match refs.programRef with
  | none => (refs, st)
  | some _ =>
    let cb := st.nextFrameCbId
    ({ refs with animationRef := cb },
     { st with nextFrameCbId := cb + 1, pendingFrameCbs := st.pendingFrameCbs ++ [cb] })

/-- `renderShader` (lines 74-134): parse the bundle, repair the fragment
source, compile both stages, link, install the program, upload geometry
and start the animation loop.  Note that the previous program (if any) is
only overwritten in `programRef`, never deleted, and no previous frame
callback is cancelled. -/
def renderShaderM (dev : Device) (shaderCodeText : List Char)
    (refs : RefState) (st : GLState) : Except RenderErr Unit × RefState × GLState :=
  match extractVertexShader shaderCodeText with
  | .error e => (.error (.parse e), refs, st)
  | .ok _vertexShaderCode =>
    match extractFragmentShader shaderCodeText with
    | .error e => (.error (.parse e), refs, st)
    | .ok fragmentShaderCode =>
      let _fixed := fixShaderIssues fragmentShaderCode
      let geometryType := extractGeometryType shaderCodeText
      match createShaderM dev .vertex st with
      | (.error e, st) => (.error e, refs, st)
      | (.ok _vertexShader, st) =>
        match createShaderM dev .fragment st with
        | (.error e, st) => (.error e, refs, st)
        | (.ok _fragmentShader, st) =>
          match createProgramM dev st with
          | (.error e, st) => (.error e, refs, st)
          | (.ok program, st) =>
            let refs := { refs with programRef := some program }
            let (refs, st) := setupGeometryM geometryType refs st
            let (refs, st) := animateM refs st
            (.ok (), refs, st)

/-- A minimal well-formed bundle used to exercise the pipeline. -/
def goodBundle : List Char :=
  "// Vertex Shader\nv\n// Fragment Shader\nf".toList

/-- A device on which both stages compile and linking succeeds. -/
def allOkDevice : Device := ⟨fun _ => true, true⟩

/-- The spec's normalized fragment source (spec §3 `NormalizedFragmentSource`
and §4.2), written from the spec's words for inputs that contain no
`precision` text: the default precision statement is the first statement,
followed by the block of inserted declarations — one for each recognised
identifier that appears in the body without its declaration, in the order
time, resolution, vNormal, vPosition — followed by the trimmed body. -/
def specNormalizedFragment (x : List Char) : List Char :=
  let t := jsTrim x
  let needsTime := jsIncludes t timeId && !jsIncludes t uniformTimeSig
  let needsResolution := jsIncludes t resolutionId && !jsIncludes t uniformResolutionSig
  let needsVNormal := jsIncludes t vNormalId && !jsIncludes t varyingVNormalSig
  let needsVPosition := jsIncludes t vPositionId && !jsIncludes t varyingVPositionSig
  let block := uniformDeclarationsOf needsTime needsResolution needsVNormal needsVPosition
  if block.isEmpty then defaultPrecision ++ t
  else defaultPrecision ++ jsTrim block ++ '\n' :: t

/-- `P` holds of every aligned 3-component vector of the flat buffer `l`
(the buffers are consumed three components per vertex by
`gl.vertexAttribPointer(_, 3, ...)`). -/
def everyTriple {α : Type} [Field α] (P : α → α → α → Prop) (l : List α) : Prop :=
  ∀ p : Nat, 3 * p + 2 < l.length → P (jsGet l (3 * p)) (jsGet l (3 * p + 1)) (jsGet l (3 * p + 2))

/-- The vector (x, y, z) has Euclidean magnitude 1 within tolerance 1e-5. -/
def unitNormal (x y z : ℝ) : Prop :=
  |Real.sqrt (x ^ 2 + y ^ 2 + z ^ 2) - 1| ≤ 1e-5

/-- The shape facts claimed for a vertex/normal buffer pair: equal lengths,
flat 3-component layout, an expanded triangle list (vertex count divisible
by 3), and non-emptiness. -/
def triListBuffers {α : Type} [Field α] (v n : List α) : Prop :=
  v.length = n.length ∧ v.length % 3 = 0 ∧ (v.length / 3) % 3 = 0 ∧ v.length ≠ 0

/-! ## Lemmas about the string primitives -/

theorem jsIndexOf_some_occ {s pat : List Char} {i : Nat}
    (h : jsIndexOf s pat = some i) : pat <+: s.drop i := by
  induction s generalizing i with
  | nil =>
    unfold jsIndexOf at h
    split at h
    · rename_i hp
      rw [List.isPrefixOf_iff_prefix] at hp
      obtain rfl : (0 : Nat) = i := Option.some.inj h
      simpa using hp
    · exact absurd h (by simp)
  | cons ch t ih =>
    unfold jsIndexOf at h
    split at h
    · rename_i hp
      rw [List.isPrefixOf_iff_prefix] at hp
      obtain rfl : (0 : Nat) = i := Option.some.inj h
      simpa using hp
    · rcases Option.map_eq_some'.mp h with ⟨j, hj, rfl⟩
      simpa using ih hj

theorem jsIndexOf_some_min {s pat : List Char} {i : Nat}
    (h : jsIndexOf s pat = some i) : ∀ j < i, ¬ pat <+: s.drop j := by
  induction s generalizing i with
  | nil =>
    unfold jsIndexOf at h
    split at h
    · obtain rfl : (0 : Nat) = i := Option.some.inj h
      omega
    · exact absurd h (by simp)
  | cons ch t ih =>
    unfold jsIndexOf at h
    split at h
    · obtain rfl : (0 : Nat) = i := Option.some.inj h
      omega
    · rename_i hp
      rcases Option.map_eq_some'.mp h with ⟨j', hj', rfl⟩
      intro j hj
      match j with
      | 0 =>
        intro hc
        exact hp (by rw [List.isPrefixOf_iff_prefix]; simpa using hc)
      | k + 1 =>
        have := ih hj' k (by omega)
        simpa using this

theorem jsIndexOf_none_no_occ {s pat : List Char}
    (h : jsIndexOf s pat = none) : ∀ j, ¬ pat <+: s.drop j := by
  induction s with
  | nil =>
    unfold jsIndexOf at h
    split at h
    · exact absurd h (by simp)
    · rename_i hp
      intro j hc
      exact hp (by rw [List.isPrefixOf_iff_prefix]; simpa using hc)
  | cons ch t ih =>
    unfold jsIndexOf at h
    split at h
    · exact absurd h (by simp)
    · rename_i hp
      have ht : jsIndexOf t pat = none := by
        cases hx : jsIndexOf t pat with
        | none => rfl
        | some v => rw [hx] at h; simp at h
      intro j
      match j with
      | 0 =>
        intro hc
        exact hp (by rw [List.isPrefixOf_iff_prefix]; simpa using hc)
      | k + 1 =>
        simpa using ih ht k

theorem jsIndexOf_prefix_zero {s pat : List Char} (h : pat <+: s) :
    jsIndexOf s pat = some 0 := by
  cases s with
  | nil =>
    unfold jsIndexOf
    rw [if_pos (by rw [List.isPrefixOf_iff_prefix]; exact h)]
  | cons ch t =>
    unfold jsIndexOf
    rw [if_pos (by rw [List.isPrefixOf_iff_prefix]; exact h)]

theorem jsIncludes_iff_occ {s pat : List Char} :
    jsIncludes s pat = true ↔ ∃ j, pat <+: s.drop j := by
  unfold jsIncludes
  constructor
  · intro h
    cases hx : jsIndexOf s pat with
    | none => rw [hx] at h; simp at h
    | some i => exact ⟨i, jsIndexOf_some_occ hx⟩
  · rintro ⟨j, hj⟩
    cases hx : jsIndexOf s pat with
    | none => exact absurd hj (jsIndexOf_none_no_occ hx j)
    | some i => simp

theorem jsIncludes_false_iff {s pat : List Char} :
    jsIncludes s pat = false ↔ ∀ j, ¬ pat <+: s.drop j := by
  rw [← Bool.not_eq_true, jsIncludes_iff_occ]
  push_neg
  rfl

theorem jsIncludes_of_prefix {s pat : List Char} (h : pat <+: s) :
    jsIncludes s pat = true :=
  jsIncludes_iff_occ.mpr ⟨0, by simpa using h⟩

theorem replaceFirstEmpty_of_prefix (pat rest : List Char) :
    replaceFirstEmpty (pat ++ rest) pat = rest := by
  unfold replaceFirstEmpty
  rw [jsIndexOf_prefix_zero (List.prefix_append pat rest)]
  simp

theorem replaceFirstEmpty_of_no_occ {s pat : List Char}
    (h : jsIncludes s pat = false) : replaceFirstEmpty s pat = s := by
  unfold replaceFirstEmpty
  unfold jsIncludes at h
  cases hx : jsIndexOf s pat with
  | none => rfl
  | some i => rw [hx] at h; simp at h

/-! ## C6: bundle splitting fails exactly when a marker is absent -/

/-- C6.  `splitBundle` (the vertex- then fragment-extraction sequence of
`renderShader`) succeeds exactly when both the `// Vertex Shader` and the
`// Fragment Shader` markers occur in the bundle text; whenever one is
absent it fails (with the `missingMarker` error, the only failure these
extractors can produce). -/
theorem splitBundle_ok_iff_markers (code : List Char) :
    (splitBundle code).isOk =
      (jsIncludes code vertexMarker && jsIncludes code fragmentMarker) := by
  unfold splitBundle extractVertexShader extractFragmentShader jsIncludes
  cases hv : jsIndexOf code vertexMarker <;> cases hf : jsIndexOf code fragmentMarker <;>
    simp [hv, hf, Except.isOk, Except.toBool, bind, Except.bind]

/-! ## C10: out-of-order markers are accepted with the swapped span -/

/-- C10.  When both markers are present but the fragment marker comes
first, extraction does not fail: JavaScript's `substring` swaps the
out-of-order indices, so `extractVertexShader` returns the trimmed text
lying between the two marker positions (which starts with the fragment
marker and contains no occurrence of the vertex marker, so the subsequent
`replace` of the vertex marker removes nothing). -/
theorem extractVertexShader_swapped_markers (code : List Char) (fs vs : Nat)
    (hf : jsIndexOf code fragmentMarker = some fs)
    (hv : jsIndexOf code vertexMarker = some vs)
    (hlt : fs < vs) :
    extractVertexShader code = .ok (jsTrim ((code.drop fs).take (vs - fs))) ∧
    jsIncludes ((code.drop fs).take (vs - fs)) vertexMarker = false := by
  have hvocc : vertexMarker <+: code.drop vs := jsIndexOf_some_occ hv
  have hvlen : vertexMarker.length = 16 := by decide
  have hvs : vs + 16 ≤ code.length := by
    have := hvocc.length_le
    rw [hvlen, List.length_drop] at this
    omega
  have hsub : jsSubstring code vs fs = (code.drop fs).take (vs - fs) := by
    simp only [jsSubstring]
    rw [min_eq_left (by omega : vs ≤ code.length),
      min_eq_left (by omega : fs ≤ code.length),
      min_eq_right (by omega : fs ≤ vs), max_eq_left (by omega : fs ≤ vs)]
  have hno : jsIncludes ((code.drop fs).take (vs - fs)) vertexMarker = false := by
    rw [jsIncludes_false_iff]
    intro q hq
    rw [List.drop_take, List.drop_drop] at hq
    have hq' : vertexMarker <+: code.drop (fs + q) := by
      refine hq.trans ?_
      exact List.take_prefix _ _
    have hbound : 16 ≤ vs - fs - q := by
      have h1 := hq.length_le
      have h2 : (List.take (vs - fs - q) (code.drop (fs + q))).length ≤ vs - fs - q := by
        simp
      omega
    exact jsIndexOf_some_min hv (fs + q) (by omega) hq'
  constructor
  · unfold extractVertexShader
    rw [hv, hf]
    show Except.ok (jsTrim (replaceFirstEmpty (jsSubstring code vs fs) vertexMarker)) = _
    rw [hsub, replaceFirstEmpty_of_no_occ hno]
  · exact hno

/-- Witness for C10 at a concrete out-of-order bundle. -/
theorem extractVertexShader_swapped_markers_witness :
    extractVertexShader ("// Fragment Shader\nf\n// Vertex Shader\nv".toList) =
      .ok (jsTrim ((("// Fragment Shader\nf\n// Vertex Shader\nv".toList).drop 0).take (21 - 0))) ∧
    jsIncludes ((("// Fragment Shader\nf\n// Vertex Shader\nv".toList).drop 0).take (21 - 0))
      vertexMarker = false :=
  extractVertexShader_swapped_markers _ 0 21 (by decide) (by decide) (by decide)

/-! ## C1/C2: resource lifecycle of `renderShader` -/

/-- C1.  Evaluating the resource model on two consecutive successful
`renderShader` calls: the first pipeline's program handle is still live
and its frame-callback registration still pending after the second call
completes — both counts reach 2 (and all four compiled shader handles stay
live) — contradicting the claimed teardown-before-rebuild with at most one
live `CompiledProgram` and frame callback per view. -/
theorem renderShader_second_call_keeps_first_pipeline :
    (renderShaderM allOkDevice goodBundle
        (renderShaderM allOkDevice goodBundle RefState.initial GLState.initial).2.1
        (renderShaderM allOkDevice goodBundle RefState.initial GLState.initial).2.2).2.2.livePrograms
      = [0, 1] ∧
    (renderShaderM allOkDevice goodBundle
        (renderShaderM allOkDevice goodBundle RefState.initial GLState.initial).2.1
        (renderShaderM allOkDevice goodBundle RefState.initial GLState.initial).2.2).2.2.pendingFrameCbs
      = [0, 1] ∧
    (renderShaderM allOkDevice goodBundle
        (renderShaderM allOkDevice goodBundle RefState.initial GLState.initial).2.1
        (renderShaderM allOkDevice goodBundle RefState.initial GLState.initial).2.2).2.2.liveShaders
      = [0, 1, 2, 3] ∧
    (renderShaderM allOkDevice goodBundle RefState.initial GLState.initial).2.2.livePrograms = [0] ∧
    (renderShaderM allOkDevice goodBundle RefState.initial GLState.initial).2.2.pendingFrameCbs = [0] := by
  refine ⟨?_, ?_, ?_, ?_, ?_⟩ <;> decide

/-- C2.  Evaluating the resource model on the two failure paths: when the
fragment stage fails to compile after the vertex stage succeeded, the
vertex shader handle is still live when the error propagates; when linking
fails, both compiled shader handles are still live (only the program
object was deleted). -/
theorem renderShader_failure_paths_leak_handles :
    ((renderShaderM ⟨fun s => decide (s = ShaderStage.vertex), true⟩ goodBundle
        RefState.initial GLState.initial).1
      = Except.error (RenderErr.compileFailed ShaderStage.fragment) ∧
     (renderShaderM ⟨fun s => decide (s = ShaderStage.vertex), true⟩ goodBundle
        RefState.initial GLState.initial).2.2.liveShaders = [0] ∧
     (renderShaderM ⟨fun s => decide (s = ShaderStage.vertex), true⟩ goodBundle
        RefState.initial GLState.initial).2.2.livePrograms = []) ∧
    ((renderShaderM ⟨fun _ => true, false⟩ goodBundle RefState.initial GLState.initial).1
      = Except.error RenderErr.linkFailed ∧
     (renderShaderM ⟨fun _ => true, false⟩ goodBundle
        RefState.initial GLState.initial).2.2.liveShaders = [0, 1] ∧
     (renderShaderM ⟨fun _ => true, false⟩ goodBundle
        RefState.initial GLState.initial).2.2.livePrograms = []) := by
  exact ⟨⟨rfl, by decide, by decide⟩, ⟨rfl, by decide, by decide⟩⟩

/-! ## C7/C8: geometry buffer shapes and the unrecognized-name fallback -/

theorem length_sphereTriangleWalk {α : Type} [Field α] (grid : List α) :
    (sphereTriangleWalk grid 20 20).length = 6840 := by
  simp only [sphereTriangleWalk, List.length_flatMap, Function.comp_def, List.length_append,
    apply_ite (List.length (α := α)), List.length_cons, List.length_nil]
  decide

theorem length_cylinderTriangleWalk {α : Type} [Field α] (grid : List α) :
    (cylinderTriangleWalk grid 16).length = 288 := by
  simp only [cylinderTriangleWalk, List.length_flatMap, Function.comp_def, List.length_append,
    apply_ite (List.length (α := α)), List.length_cons, List.length_nil]
  decide

theorem length_torusTriangleWalk {α : Type} [Field α] (grid : List α) :
    (torusTriangleWalk grid 16 16).length = 4608 := by
  simp only [torusTriangleWalk, List.length_flatMap, Function.comp_def, List.length_append,
    apply_ite (List.length (α := α)), List.length_cons, List.length_nil]
  decide

/-- C7.  For each of the five geometry names, the generated vertex and
normal buffers have equal length, both flat lists hold whole 3-component
vectors, the vertex count is a non-zero multiple of 3 (an expanded
triangle list), and the buffers are non-empty. -/
theorem geometry_vertices_normals_shape (cos sin : ℝ → ℝ) (pi : ℝ) :
    triListBuffers (getGeometryVertices cos sin pi ("cube".toList))
      (getGeometryNormals cos sin pi ("cube".toList)) ∧
    triListBuffers (getGeometryVertices cos sin pi ("sphere".toList))
      (getGeometryNormals cos sin pi ("sphere".toList)) ∧
    triListBuffers (getGeometryVertices cos sin pi ("plane".toList))
      (getGeometryNormals cos sin pi ("plane".toList)) ∧
    triListBuffers (getGeometryVertices cos sin pi ("cylinder".toList))
      (getGeometryNormals cos sin pi ("cylinder".toList)) ∧
    triListBuffers (getGeometryVertices cos sin pi ("torus".toList))
      (getGeometryNormals cos sin pi ("torus".toList)) := by
  refine ⟨?_, ?_, ?_, ?_, ?_⟩
  · have hv : getGeometryVertices cos sin pi ("cube".toList) = cubeVertices := rfl
    have hn : getGeometryNormals cos sin pi ("cube".toList) = cubeNormals := rfl
    exact ⟨by rw [hv, hn]; decide, by rw [hv]; decide, by rw [hv]; decide, by rw [hv]; decide⟩
  · have hv : getGeometryVertices cos sin pi ("sphere".toList) =
        generateSphere cos sin pi 1 20 20 := rfl
    have hn : getGeometryNormals cos sin pi ("sphere".toList) =
        generateSphereNormals cos sin pi 1 20 20 := rfl
    have lv : (generateSphere cos sin pi 1 20 20).length = 6840 :=
      length_sphereTriangleWalk _
    have ln : (generateSphereNormals cos sin pi 1 20 20).length = 6840 :=
      length_sphereTriangleWalk _
    exact ⟨by rw [hv, hn, lv, ln], by rw [hv, lv], by rw [hv, lv], by rw [hv, lv]; norm_num⟩
  · have hv : getGeometryVertices cos sin pi ("plane".toList) = planeVertices := rfl
    have hn : getGeometryNormals cos sin pi ("plane".toList) = planeNormals := rfl
    exact ⟨by rw [hv, hn]; decide, by rw [hv]; decide, by rw [hv]; decide, by rw [hv]; decide⟩
  · have hv : getGeometryVertices cos sin pi ("cylinder".toList) =
        generateCylinder cos sin pi 1 2 16 := rfl
    have hn : getGeometryNormals cos sin pi ("cylinder".toList) =
        generateCylinderNormals cos sin pi 1 2 16 := rfl
    have lv : (generateCylinder cos sin pi 1 2 16).length = 288 :=
      length_cylinderTriangleWalk _
    have ln : (generateCylinderNormals cos sin pi 1 2 16).length = 288 :=
      length_cylinderTriangleWalk _
    exact ⟨by rw [hv, hn, lv, ln], by rw [hv, lv], by rw [hv, lv], by rw [hv, lv]; norm_num⟩
  · have hv : getGeometryVertices cos sin pi ("torus".toList) =
        generateTorus cos sin pi 0.6 0.3 16 16 := rfl
    have hn : getGeometryNormals cos sin pi ("torus".toList) =
        generateTorusNormals cos sin pi 0.6 0.3 16 16 := rfl
    have lv : (generateTorus cos sin pi 0.6 0.3 16 16).length = 4608 :=
      length_torusTriangleWalk _
    have ln : (generateTorusNormals cos sin pi 0.6 0.3 16 16).length = 4608 :=
      length_torusTriangleWalk _
    exact ⟨by rw [hv, hn, lv, ln], by rw [hv, lv], by rw [hv, lv], by rw [hv, lv]; norm_num⟩

/-- C8.  For every geometry name whose case-insensitive form is not one of
the five recognised ones, the generators return exactly the Cube variant's
vertex and normal buffers (the `default` literals coincide with the
`"cube"` case literals); the generators are total, so no input name can
make them fail. -/
theorem geometry_unrecognized_falls_back_to_cube (cos sin : ℝ → ℝ) (pi : ℝ)
    (ty : List Char)
    (h : ty.map Char.toLower ∉
      [("cube".toList), ("sphere".toList), ("plane".toList),
       ("cylinder".toList), ("torus".toList)]) :
    getGeometryVertices cos sin pi ty = cubeVertices ∧
    getGeometryNormals cos sin pi ty = cubeNormals := by
  simp only [List.mem_cons, List.not_mem_nil, or_false, not_or] at h
  obtain ⟨h1, h2, h3, h4, h5⟩ := h
  constructor
  · simp only [getGeometryVertices]
    rw [if_neg h1, if_neg h2, if_neg h3, if_neg h4, if_neg h5]
    rfl
  · simp only [getGeometryNormals]
    rw [if_neg h1, if_neg h2, if_neg h3, if_neg h4, if_neg h5]
    rfl

/-- Witness for C8 at the concrete unrecognised name `"pyramid"`. -/
theorem geometry_unrecognized_falls_back_to_cube_witness :
    getGeometryVertices Real.cos Real.sin Real.pi ("pyramid".toList) = cubeVertices ∧
    getGeometryNormals Real.cos Real.sin Real.pi ("pyramid".toList) = cubeNormals :=
  geometry_unrecognized_falls_back_to_cube Real.cos Real.sin Real.pi _ (by decide)

/-! ## C9: unit normals for the curved generators -/

theorem jsGet_append_left {α : Type} [Field α] {l₁ l₂ : List α} {n : Nat}
    (h : n < l₁.length) : jsGet (l₁ ++ l₂) n = jsGet l₁ n :=
  List.getD_append _ _ _ _ h

theorem jsGet_append_right {α : Type} [Field α] {l₁ l₂ : List α} {n : Nat}
    (h : l₁.length ≤ n) : jsGet (l₁ ++ l₂) n = jsGet l₂ (n - l₁.length) :=
  List.getD_append_right _ _ _ _ h

theorem length_flatMap_range_const {α : Type} (f : Nat → List α) (B : Nat)
    (hB : ∀ k, (f k).length = B) (n : Nat) :
    ((List.range n).flatMap f).length = n * B := by
  induction n with
  | zero => simp
  | succ m ih =>
    rw [List.range_succ, List.flatMap_append]
    simp only [List.length_append, ih, List.flatMap_cons, List.flatMap_nil, List.append_nil]
    rw [hB m, Nat.succ_mul]

theorem jsGet_flatMap_range {α : Type} [Field α] (f : Nat → List α) (B : Nat)
    (hB : ∀ k, (f k).length = B) (n i r : Nat) (hi : i < n) (hr : r < B) :
    jsGet ((List.range n).flatMap f) (i * B + r) = jsGet (f i) r := by
  induction n with
  | zero => omega
  | succ m ih =>
    rw [List.range_succ, List.flatMap_append]
    simp only [List.flatMap_cons, List.flatMap_nil, List.append_nil]
    rcases Nat.lt_or_ge i m with him | him
    · have hlen : ((List.range m).flatMap f).length = m * B :=
        length_flatMap_range_const f B hB m
      have hmul : (i + 1) * B ≤ m * B := Nat.mul_le_mul_right _ (by omega)
      have hsm : (i + 1) * B = i * B + B := Nat.succ_mul i B
      rw [jsGet_append_left (by omega)]
      exact ih him
    · have hieq : i = m := by omega
      subst hieq
      have hlen : ((List.range i).flatMap f).length = i * B :=
        length_flatMap_range_const f B hB i
      rw [jsGet_append_right (by omega)]
      congr 1
      omega

theorem everyTriple_nil {α : Type} [Field α] {P : α → α → α → Prop} :
    everyTriple P ([] : List α) := by
  intro p hp
  simp at hp

theorem everyTriple_cons3 {α : Type} [Field α] {P : α → α → α → Prop}
    {x y z : α} {l : List α} (hx : P x y z) (hl : everyTriple P l) :
    everyTriple P (x :: y :: z :: l) := by
  intro p hp
  match p with
  | 0 => simpa [jsGet] using hx
  | q + 1 =>
    have hb : 3 * q + 2 < l.length := by
      simp only [List.length_cons] at hp
      omega
    have e0 : 3 * (q + 1) = 3 * q + 1 + 1 + 1 := by ring
    have e1 : 3 * (q + 1) + 1 = 3 * q + 1 + 1 + 1 + 1 := by ring
    have e2 : 3 * (q + 1) + 2 = 3 * q + 2 + 1 + 1 + 1 := by ring
    have g0 : jsGet (x :: y :: z :: l) (3 * (q + 1)) = jsGet l (3 * q) := by
      rw [e0]; simp [jsGet]
    have g1 : jsGet (x :: y :: z :: l) (3 * (q + 1) + 1) = jsGet l (3 * q + 1) := by
      rw [e1]; simp [jsGet]
    have g2 : jsGet (x :: y :: z :: l) (3 * (q + 1) + 2) = jsGet l (3 * q + 2) := by
      rw [e2]; simp [jsGet]
    rw [g0, g1, g2]
    exact hl q hb

theorem everyTriple_append {α : Type} [Field α] {P : α → α → α → Prop}
    {l₁ l₂ : List α} (h3 : l₁.length % 3 = 0)
    (h1 : everyTriple P l₁) (h2 : everyTriple P l₂) :
    everyTriple P (l₁ ++ l₂) := by
  intro p hp
  rw [List.length_append] at hp
  rcases Nat.lt_or_ge (3 * p + 2) l₁.length with hlt | hge
  · rw [jsGet_append_left (by omega), jsGet_append_left (by omega),
      jsGet_append_left (by omega)]
    exact h1 p hlt
  · have hge' : l₁.length ≤ 3 * p := by omega
    obtain ⟨m, hm⟩ : ∃ m, l₁.length = 3 * m := ⟨l₁.length / 3, by omega⟩
    have hpm : m ≤ p := by omega
    have e0 : 3 * p - l₁.length = 3 * (p - m) := by omega
    have e1 : 3 * p + 1 - l₁.length = 3 * (p - m) + 1 := by omega
    have e2 : 3 * p + 2 - l₁.length = 3 * (p - m) + 2 := by omega
    rw [jsGet_append_right (by omega), jsGet_append_right (by omega),
      jsGet_append_right (by omega), e0, e1, e2]
    exact h2 (p - m) (by omega)

theorem everyTriple_flatMap_range {α : Type} [Field α] {P : α → α → α → Prop}
    {f : Nat → List α} {n : Nat}
    (H : ∀ i < n, (f i).length % 3 = 0 ∧ everyTriple P (f i)) :
    ((List.range n).flatMap f).length % 3 = 0 ∧
      everyTriple P ((List.range n).flatMap f) := by
  induction n with
  | zero => exact ⟨by simp, by simp [everyTriple_nil]⟩
  | succ m ih =>
    obtain ⟨hl, he⟩ := ih fun i hi => H i (by omega)
    obtain ⟨hl2, he2⟩ := H m (by omega)
    rw [List.range_succ, List.flatMap_append]
    simp only [List.flatMap_cons, List.flatMap_nil, List.append_nil]
    refine ⟨?_, everyTriple_append hl he he2⟩
    rw [List.length_append]
    omega

theorem everyTriple_ite {α : Type} [Field α] {P : α → α → α → Prop}
    (c : Prop) [Decidable c] {A : List α} (hA : everyTriple P A) :
    everyTriple P (if c then A else []) := by
  split
  · exact hA
  · exact everyTriple_nil

theorem length_ite_mod3 {α : Type} (c : Prop) [Decidable c] {A : List α}
    (hA : A.length % 3 = 0) : (if c then A else []).length % 3 = 0 := by
  split
  · exact hA
  · simp

theorem unitNormal_of_sq {x y z : ℝ} (h : x ^ 2 + y ^ 2 + z ^ 2 = 1) :
    unitNormal x y z := by
  unfold unitNormal
  rw [h, Real.sqrt_one]
  norm_num

theorem length_sphereNormalVec {α : Type} [Field α] (cos sin : α → α) (pi : α)
    (ws hs i j : Nat) : (sphereNormalVec cos sin pi ws hs i j).length = 3 := by
  simp [sphereNormalVec]

theorem length_sphereNormalRow {α : Type} [Field α] (cos sin : α → α) (pi : α)
    (ws hs i : Nat) : (sphereNormalRow cos sin pi ws hs i).length = (ws + 1) * 3 :=
  length_flatMap_range_const _ 3 (fun _ => length_sphereNormalVec cos sin pi ws hs i _) _

theorem jsGet_sphereNormalGrid (cos sin : ℝ → ℝ) (pi : ℝ) (ws hs i j k : Nat)
    (hi : i < hs + 1) (hj : j < ws + 1) (hk : k < 3) :
    jsGet (sphereNormalGrid cos sin pi ws hs) (i * ((ws + 1) * 3) + (j * 3 + k)) =
      jsGet (sphereNormalVec cos sin pi ws hs i j) k := by
  unfold sphereNormalGrid
  rw [jsGet_flatMap_range (sphereNormalRow cos sin pi ws hs) ((ws + 1) * 3)
    (fun _ => length_sphereNormalRow cos sin pi ws hs _) _ _ _ hi (by omega)]
  unfold sphereNormalRow
  rw [jsGet_flatMap_range (sphereNormalVec cos sin pi ws hs i) 3
    (fun _ => length_sphereNormalVec cos sin pi ws hs i _) _ _ _ hj hk]

theorem sphereNormalGrid_unit {cos sin : ℝ → ℝ} (pi : ℝ) (ws hs : Nat)
    (hP : ∀ t : ℝ, sin t ^ 2 + cos t ^ 2 = 1) :
    ∀ m < (hs + 1) * (ws + 1),
      unitNormal (jsGet (sphereNormalGrid cos sin pi ws hs) (m * 3))
        (jsGet (sphereNormalGrid cos sin pi ws hs) (m * 3 + 1))
        (jsGet (sphereNormalGrid cos sin pi ws hs) (m * 3 + 2)) := by
  intro m hm
  have hdm : (ws + 1) * (m / (ws + 1)) + m % (ws + 1) = m := Nat.div_add_mod m (ws + 1)
  set i := m / (ws + 1) with hidef
  set j := m % (ws + 1) with hjdef
  have hi : i < hs + 1 := by
    rw [hidef]
    exact Nat.div_lt_of_lt_mul (by rw [Nat.mul_comm (ws + 1)]; exact hm)
  have hj : j < ws + 1 := Nat.mod_lt _ (by omega)
  have e0 : m * 3 = i * ((ws + 1) * 3) + (j * 3 + 0) := by rw [← hdm]; ring
  have e1 : m * 3 + 1 = i * ((ws + 1) * 3) + (j * 3 + 1) := by rw [← hdm]; ring
  have e2 : m * 3 + 2 = i * ((ws + 1) * 3) + (j * 3 + 2) := by rw [← hdm]; ring
  rw [e2, e1, e0]
  rw [jsGet_sphereNormalGrid cos sin pi ws hs i j 0 hi hj (by omega),
    jsGet_sphereNormalGrid cos sin pi ws hs i j 1 hi hj (by omega),
    jsGet_sphereNormalGrid cos sin pi ws hs i j 2 hi hj (by omega)]
  simp only [sphereNormalVec, jsGet, List.getD_cons_zero, List.getD_cons_succ]
  apply unitNormal_of_sq
  have h1 := hP (((j : ℝ) / (ws : ℝ)) * pi * 2)
  have h2 := hP (((i : ℝ) / (hs : ℝ)) * pi)
  nlinarith [h1, h2]

theorem length_cylinderNormalPair {α : Type} [Field α] (cos sin : α → α) (pi : α)
    (segments i : Nat) : (cylinderNormalPair cos sin pi segments i).length = 6 := by
  simp [cylinderNormalPair]

theorem jsGet_cylinderNormalGrid (cos sin : ℝ → ℝ) (pi : ℝ) (segments q r : Nat)
    (hq : q < segments + 1) (hr : r < 6) :
    jsGet (cylinderNormalGrid cos sin pi segments) (q * 6 + r) =
      jsGet (cylinderNormalPair cos sin pi segments q) r := by
  unfold cylinderNormalGrid
  rw [jsGet_flatMap_range (cylinderNormalPair cos sin pi segments) 6
    (fun _ => length_cylinderNormalPair cos sin pi segments _) _ _ _ hq hr]

theorem cylinderNormalGrid_unit {cos sin : ℝ → ℝ} (pi : ℝ) (segments : Nat)
    (hP : ∀ t : ℝ, sin t ^ 2 + cos t ^ 2 = 1) :
    ∀ m < 2 * (segments + 1),
      unitNormal (jsGet (cylinderNormalGrid cos sin pi segments) (m * 3))
        (jsGet (cylinderNormalGrid cos sin pi segments) (m * 3 + 1))
        (jsGet (cylinderNormalGrid cos sin pi segments) (m * 3 + 2)) := by
  intro m hm
  have hdm : 2 * (m / 2) + m % 2 = m := Nat.div_add_mod m 2
  set q := m / 2 with hqdef
  set b := m % 2 with hbdef
  have hq : q < segments + 1 := by
    rw [hqdef]
    exact Nat.div_lt_of_lt_mul hm
  have hb : b < 2 := Nat.mod_lt _ (by omega)
  have e0 : m * 3 = q * 6 + (b * 3 + 0) := by rw [← hdm]; ring
  have e1 : m * 3 + 1 = q * 6 + (b * 3 + 1) := by rw [← hdm]; ring
  have e2 : m * 3 + 2 = q * 6 + (b * 3 + 2) := by rw [← hdm]; ring
  rw [e2, e1, e0]
  rw [jsGet_cylinderNormalGrid cos sin pi segments q _ hq (by omega),
    jsGet_cylinderNormalGrid cos sin pi segments q _ hq (by omega),
    jsGet_cylinderNormalGrid cos sin pi segments q _ hq (by omega)]
  have hb01 : b = 0 ∨ b = 1 := by omega
  have hsum := hP (((q : ℝ) / (segments : ℝ)) * pi * 2)
  rcases hb01 with hb0 | hb1
  · rw [hb0]
    simp only [cylinderNormalPair, jsGet, List.getD_cons_zero, List.getD_cons_succ,
      Nat.zero_mul, Nat.zero_add]
    apply unitNormal_of_sq
    nlinarith [hsum]
  · rw [hb1]
    simp only [cylinderNormalPair, jsGet, List.getD_cons_zero, List.getD_cons_succ,
      Nat.one_mul]
    apply unitNormal_of_sq
    nlinarith [hsum]

theorem length_torusNormalVec {α : Type} [Field α] (cos sin : α → α)
    (pi majorRadius minorRadius : α) (ms mis i j : Nat) :
    (torusNormalVec cos sin pi majorRadius minorRadius ms mis i j).length = 3 := by
  simp [torusNormalVec]

theorem length_torusNormalRow {α : Type} [Field α] (cos sin : α → α)
    (pi majorRadius minorRadius : α) (ms mis i : Nat) :
    (torusNormalRow cos sin pi majorRadius minorRadius ms mis i).length = (mis + 1) * 3 :=
  length_flatMap_range_const _ 3
    (fun _ => length_torusNormalVec cos sin pi majorRadius minorRadius ms mis i _) _

theorem jsGet_torusNormalGrid (cos sin : ℝ → ℝ) (pi majorRadius minorRadius : ℝ)
    (ms mis i j k : Nat) (hi : i < ms + 1) (hj : j < mis + 1) (hk : k < 3) :
    jsGet (torusNormalGrid cos sin pi majorRadius minorRadius ms mis)
        (i * ((mis + 1) * 3) + (j * 3 + k)) =
      jsGet (torusNormalVec cos sin pi majorRadius minorRadius ms mis i j) k := by
  unfold torusNormalGrid
  rw [jsGet_flatMap_range (torusNormalRow cos sin pi majorRadius minorRadius ms mis)
    ((mis + 1) * 3)
    (fun _ => length_torusNormalRow cos sin pi majorRadius minorRadius ms mis _)
    _ _ _ hi (by omega)]
  unfold torusNormalRow
  rw [jsGet_flatMap_range (torusNormalVec cos sin pi majorRadius minorRadius ms mis i) 3
    (fun _ => length_torusNormalVec cos sin pi majorRadius minorRadius ms mis i _)
    _ _ _ hj hk]

theorem torusNormalGrid_unit {cos sin : ℝ → ℝ} (pi majorRadius minorRadius : ℝ)
    (ms mis : Nat) (hP : ∀ t : ℝ, sin t ^ 2 + cos t ^ 2 = 1)
    (hr : minorRadius ≠ 0) :
    ∀ m < (ms + 1) * (mis + 1),
      unitNormal (jsGet (torusNormalGrid cos sin pi majorRadius minorRadius ms mis) (m * 3))
        (jsGet (torusNormalGrid cos sin pi majorRadius minorRadius ms mis) (m * 3 + 1))
        (jsGet (torusNormalGrid cos sin pi majorRadius minorRadius ms mis) (m * 3 + 2)) := by
  intro m hm
  have hdm : (mis + 1) * (m / (mis + 1)) + m % (mis + 1) = m := Nat.div_add_mod m (mis + 1)
  set i := m / (mis + 1) with hidef
  set j := m % (mis + 1) with hjdef
  have hi : i < ms + 1 := by
    rw [hidef]
    exact Nat.div_lt_of_lt_mul (by rw [Nat.mul_comm (mis + 1)]; exact hm)
  have hj : j < mis + 1 := Nat.mod_lt _ (by omega)
  have e0 : m * 3 = i * ((mis + 1) * 3) + (j * 3 + 0) := by rw [← hdm]; ring
  have e1 : m * 3 + 1 = i * ((mis + 1) * 3) + (j * 3 + 1) := by rw [← hdm]; ring
  have e2 : m * 3 + 2 = i * ((mis + 1) * 3) + (j * 3 + 2) := by rw [← hdm]; ring
  rw [e2, e1, e0]
  rw [jsGet_torusNormalGrid cos sin pi majorRadius minorRadius ms mis i j 0 hi hj (by omega),
    jsGet_torusNormalGrid cos sin pi majorRadius minorRadius ms mis i j 1 hi hj (by omega),
    jsGet_torusNormalGrid cos sin pi majorRadius minorRadius ms mis i j 2 hi hj (by omega)]
  simp only [torusNormalVec, jsGet, List.getD_cons_zero, List.getD_cons_succ]
  have hu := hP (((i : ℝ) / (ms : ℝ)) * pi * 2)
  have hv := hP (((j : ℝ) / (mis : ℝ)) * pi * 2)
  set cu := cos (((i : ℝ) / (ms : ℝ)) * pi * 2)
  set su := sin (((i : ℝ) / (ms : ℝ)) * pi * 2)
  set cv := cos (((j : ℝ) / (mis : ℝ)) * pi * 2)
  set sv := sin (((j : ℝ) / (mis : ℝ)) * pi * 2)
  have f1 : ((majorRadius + minorRadius * cv) * cu - majorRadius * cu) / minorRadius
      = cv * cu := by
    field_simp
    ring
  have f2 : (minorRadius * sv) / minorRadius = sv := by
    field_simp
  have f3 : ((majorRadius + minorRadius * cv) * su - majorRadius * su) / minorRadius
      = cv * su := by
    field_simp
    ring
  rw [f1, f2, f3]
  apply unitNormal_of_sq
  nlinarith [hu, hv]

theorem everyTriple_sphereTriangleWalk {P : ℝ → ℝ → ℝ → Prop} (grid : List ℝ)
    (ws hs : Nat)
    (H : ∀ m < (hs + 1) * (ws + 1),
      P (jsGet grid (m * 3)) (jsGet grid (m * 3 + 1)) (jsGet grid (m * 3 + 2))) :
    everyTriple P (sphereTriangleWalk grid ws hs) := by
  unfold sphereTriangleWalk
  refine (everyTriple_flatMap_range fun i hi =>
    everyTriple_flatMap_range fun j hj => ?_).2
  have hkey : (i + 2) * (ws + 1) ≤ (hs + 1) * (ws + 1) :=
    Nat.mul_le_mul_right _ (by omega)
  have ekey : (i + 2) * (ws + 1) = i * (ws + 1) + 2 * ws + 2 := by ring
  constructor
  · rw [List.length_append]
    have l1 := length_ite_mod3 (α := ℝ) (i ≠ 0)
      (A := [jsGet grid ((i * (ws + 1) + j) * 3), jsGet grid ((i * (ws + 1) + j) * 3 + 1),
        jsGet grid ((i * (ws + 1) + j) * 3 + 2), jsGet grid ((i * (ws + 1) + j + ws + 1) * 3),
        jsGet grid ((i * (ws + 1) + j + ws + 1) * 3 + 1),
        jsGet grid ((i * (ws + 1) + j + ws + 1) * 3 + 2), jsGet grid ((i * (ws + 1) + j + 1) * 3),
        jsGet grid ((i * (ws + 1) + j + 1) * 3 + 1), jsGet grid ((i * (ws + 1) + j + 1) * 3 + 2)])
      (by simp)
    have l2 := length_ite_mod3 (α := ℝ) (i ≠ hs - 1)
      (A := [jsGet grid ((i * (ws + 1) + j + ws + 1) * 3),
        jsGet grid ((i * (ws + 1) + j + ws + 1) * 3 + 1),
        jsGet grid ((i * (ws + 1) + j + ws + 1) * 3 + 2),
        jsGet grid ((i * (ws + 1) + j + ws + 1 + 1) * 3),
        jsGet grid ((i * (ws + 1) + j + ws + 1 + 1) * 3 + 1),
        jsGet grid ((i * (ws + 1) + j + ws + 1 + 1) * 3 + 2),
        jsGet grid ((i * (ws + 1) + j + 1) * 3), jsGet grid ((i * (ws + 1) + j + 1) * 3 + 1),
        jsGet grid ((i * (ws + 1) + j + 1) * 3 + 2)])
      (by simp)
    omega
  · refine everyTriple_append (length_ite_mod3 _ (by simp)) ?_ ?_
    · refine everyTriple_ite _ ?_
      exact everyTriple_cons3 (H (i * (ws + 1) + j) (by omega))
        (everyTriple_cons3 (H (i * (ws + 1) + j + ws + 1) (by omega))
          (everyTriple_cons3 (H (i * (ws + 1) + j + 1) (by omega)) everyTriple_nil))
    · refine everyTriple_ite _ ?_
      exact everyTriple_cons3 (H (i * (ws + 1) + j + ws + 1) (by omega))
        (everyTriple_cons3 (H (i * (ws + 1) + j + ws + 1 + 1) (by omega))
          (everyTriple_cons3 (H (i * (ws + 1) + j + 1) (by omega)) everyTriple_nil))

theorem everyTriple_cylinderTriangleWalk {P : ℝ → ℝ → ℝ → Prop} (grid : List ℝ)
    (segments : Nat) (hseg : 0 < segments)
    (H : ∀ m < 2 * (segments + 1),
      P (jsGet grid (m * 3)) (jsGet grid (m * 3 + 1)) (jsGet grid (m * 3 + 2))) :
    everyTriple P (cylinderTriangleWalk grid segments) := by
  unfold cylinderTriangleWalk
  refine (everyTriple_flatMap_range fun i hi => ?_).2
  have hmod : (i + 1) % segments < segments := Nat.mod_lt _ hseg
  refine ⟨by simp, ?_⟩
  exact everyTriple_cons3 (H (i * 2) (by omega))
    (everyTriple_cons3 (H ((i + 1) % segments * 2) (by omega))
      (everyTriple_cons3 (H (i * 2 + 1) (by omega))
        (everyTriple_cons3 (H (i * 2 + 1) (by omega))
          (everyTriple_cons3 (H ((i + 1) % segments * 2) (by omega))
            (everyTriple_cons3 (H ((i + 1) % segments * 2 + 1) (by omega))
              everyTriple_nil)))))

theorem everyTriple_torusTriangleWalk {P : ℝ → ℝ → ℝ → Prop} (grid : List ℝ)
    (ms mis : Nat)
    (H : ∀ m < (ms + 1) * (mis + 1),
      P (jsGet grid (m * 3)) (jsGet grid (m * 3 + 1)) (jsGet grid (m * 3 + 2))) :
    everyTriple P (torusTriangleWalk grid ms mis) := by
  unfold torusTriangleWalk
  refine (everyTriple_flatMap_range fun i hi =>
    everyTriple_flatMap_range fun j hj => ?_).2
  have hkey : (i + 2) * (mis + 1) ≤ (ms + 1) * (mis + 1) :=
    Nat.mul_le_mul_right _ (by omega)
  have ekey : (i + 2) * (mis + 1) = i * (mis + 1) + 2 * mis + 2 := by ring
  refine ⟨by simp, ?_⟩
  exact everyTriple_cons3 (H (i * (mis + 1) + j) (by omega))
    (everyTriple_cons3 (H (i * (mis + 1) + j + mis + 1) (by omega))
      (everyTriple_cons3 (H (i * (mis + 1) + j + 1) (by omega))
        (everyTriple_cons3 (H (i * (mis + 1) + j + mis + 1) (by omega))
          (everyTriple_cons3 (H (i * (mis + 1) + j + mis + 1 + 1) (by omega))
            (everyTriple_cons3 (H (i * (mis + 1) + j + 1) (by omega))
              everyTriple_nil)))))

/-- C9.  Every 3-component normal emitted into the sphere, cylinder and
torus normal buffers (at the source's default parameters) has Euclidean
magnitude 1 within tolerance 1e-5; `cos`/`sin` stand for `Math.cos` and
`Math.sin`, assumed only to satisfy the Pythagorean identity (exact-real
model of the IEEE doubles). -/
theorem curved_normals_unit_magnitude (cos sin : ℝ → ℝ) (pi : ℝ)
    (hP : ∀ t : ℝ, sin t ^ 2 + cos t ^ 2 = 1) :
    everyTriple unitNormal (generateSphereNormals cos sin pi 1 20 20) ∧
    everyTriple unitNormal (generateCylinderNormals cos sin pi 1 2 16) ∧
    everyTriple unitNormal (generateTorusNormals cos sin pi 0.6 0.3 16 16) := by
  refine ⟨?_, ?_, ?_⟩
  · unfold generateSphereNormals
    exact everyTriple_sphereTriangleWalk _ 20 20 (sphereNormalGrid_unit pi 20 20 hP)
  · unfold generateCylinderNormals
    exact everyTriple_cylinderTriangleWalk _ 16 (by omega)
      (cylinderNormalGrid_unit pi 16 hP)
  · unfold generateTorusNormals
    exact everyTriple_torusTriangleWalk _ 16 16
      (torusNormalGrid_unit pi 0.6 0.3 16 16 hP (by norm_num))

/-- Witness for C9 at the real cosine and sine. -/
theorem curved_normals_unit_magnitude_witness :
    everyTriple unitNormal (generateSphereNormals Real.cos Real.sin Real.pi 1 20 20) ∧
    everyTriple unitNormal (generateCylinderNormals Real.cos Real.sin Real.pi 1 2 16) ∧
    everyTriple unitNormal (generateTorusNormals Real.cos Real.sin Real.pi 0.6 0.3 16 16) :=
  curved_normals_unit_magnitude Real.cos Real.sin Real.pi
    (fun t => Real.sin_sq_add_cos_sq t)

/-! ## Lemmas about `jsTrim`, `splitOnNl`/`joinNl` and occurrence junctions -/

theorem head?_dropWhile (p : Char → Bool) (s : List Char) :
    ∀ c ∈ (s.dropWhile p).head?, p c = false := by
  induction s with
  | nil => simp
  | cons a t ih =>
    rw [List.dropWhile_cons]
    split
    · exact ih
    · rename_i h
      intro c hc
      simp only [List.head?_cons, Option.mem_def, Option.some.injEq] at hc
      subst hc
      simpa using h

theorem dropWhile_eq_self_of_head {p : Char → Bool} {s : List Char}
    (h : ∀ c ∈ s.head?, p c = false) : s.dropWhile p = s := by
  cases s with
  | nil => rfl
  | cons a t =>
    rw [List.dropWhile_cons, if_neg]
    have := h a (by simp)
    simp [this]

theorem prefix_head? {l₁ l₂ : List Char} (h : l₁ <+: l₂) (hne : l₁ ≠ []) :
    l₂.head? = l₁.head? := by
  obtain ⟨r, rfl⟩ := h
  cases l₁ with
  | nil => exact absurd rfl hne
  | cons a t => simp

theorem jsTrim_fix {s : List Char} (hh : ∀ c ∈ s.head?, isJsSpace c = false)
    (hl : ∀ c ∈ s.getLast?, isJsSpace c = false) : jsTrim s = s := by
  unfold jsTrim
  rw [dropWhile_eq_self_of_head hh]
  rw [dropWhile_eq_self_of_head (by rw [List.head?_reverse]; exact hl)]
  exact List.reverse_reverse s

theorem jsTrim_prefix_dropWhile (s : List Char) :
    jsTrim s <+: s.dropWhile isJsSpace := by
  unfold jsTrim
  have h := List.reverse_prefix.mpr
    (List.dropWhile_suffix (l := (s.dropWhile isJsSpace).reverse) isJsSpace)
  simpa using h

theorem jsTrim_head (s : List Char) :
    ∀ c ∈ (jsTrim s).head?, isJsSpace c = false := by
  intro c hc
  have hne : jsTrim s ≠ [] := by
    intro h
    rw [h] at hc
    simp at hc
  have he := prefix_head? (jsTrim_prefix_dropWhile s) hne
  rw [← he] at hc
  exact head?_dropWhile isJsSpace s c hc

theorem jsTrim_last (s : List Char) :
    ∀ c ∈ (jsTrim s).getLast?, isJsSpace c = false := by
  intro c hc
  unfold jsTrim at hc
  rw [List.getLast?_reverse] at hc
  exact head?_dropWhile isJsSpace _ c hc

theorem jsTrim_idem (s : List Char) : jsTrim (jsTrim s) = jsTrim s :=
  jsTrim_fix (jsTrim_head s) (jsTrim_last s)

theorem jsTrim_cons_space {c : Char} {s : List Char} (hc : isJsSpace c = true) :
    jsTrim (c :: s) = jsTrim s := by
  unfold jsTrim
  rw [List.dropWhile_cons, if_pos hc]

theorem jsTrim_infix_self (s : List Char) : jsTrim s <:+: s :=
  ((jsTrim_prefix_dropWhile s).isInfix).trans (List.dropWhile_suffix _).isInfix

theorem jsIncludes_infix_mono {s t pat : List Char} (hinf : t <:+: s)
    (h : jsIncludes t pat = true) : jsIncludes s pat = true := by
  rcases jsIncludes_iff_occ.mp h with ⟨q, hq⟩
  rcases hinf with ⟨pre, post, rfl⟩
  rcases le_or_lt q t.length with hql | hql
  · refine jsIncludes_iff_occ.mpr ⟨pre.length + q, ?_⟩
    rw [List.append_assoc]
    rw [show pre.length + q = pre.length + q from rfl]
    have hdrop : (pre ++ (t ++ post)).drop (pre.length + q) = (t ++ post).drop q := by
      rw [← List.drop_drop, List.drop_left]
    rw [hdrop, List.drop_append_of_le_length hql]
    exact hq.trans (List.prefix_append _ _)
  · have : pat <+: [] := by
      have hnil : t.drop q = [] := List.drop_eq_nil_of_le (by omega)
      rwa [hnil] at hq
    have hpat : pat = [] := List.prefix_nil.mp this
    subst hpat
    exact jsIncludes_of_prefix List.nil_prefix

theorem suffix_getLast? {l₁ l₂ : List Char} (h : l₁ <:+ l₂) (hne : l₁ ≠ []) :
    l₂.getLast? = l₁.getLast? := by
  obtain ⟨r, rfl⟩ := h
  rw [List.getLast?_append]
  cases hx : l₁.getLast? with
  | none => exact absurd (List.getLast?_eq_none_iff.mp hx) hne
  | some a => simp

/-- Occurrence junction: when `C` ends with a separator character that the
pattern does not contain, occurrences of the pattern in `C ++ t` lie
entirely inside `C` or entirely inside `t`. -/
theorem jsIncludes_append_sep {C t pat : List Char} {sep : Char}
    (hC : C.getLast? = some sep) (hsep : sep ∉ pat) :
    jsIncludes (C ++ t) pat = (jsIncludes C pat || jsIncludes t pat) := by
  rw [Bool.eq_iff_iff, Bool.or_eq_true, jsIncludes_iff_occ, jsIncludes_iff_occ,
    jsIncludes_iff_occ]
  constructor
  · rintro ⟨q, hq⟩
    rcases le_or_lt C.length q with hcq | hcq
    · right
      refine ⟨q - C.length, ?_⟩
      rw [show q = C.length + (q - C.length) from by omega, ← List.drop_drop,
        List.drop_left] at hq
      exact hq
    · rw [List.drop_append_of_le_length (by omega)] at hq
      have hCd : C.drop q <+: C.drop q ++ t := List.prefix_append _ _
      rcases le_or_lt pat.length (C.drop q).length with hle | hlt
      · left
        exact ⟨q, List.prefix_of_prefix_length_le hq hCd hle⟩
      · exfalso
        have hsub : C.drop q <+: pat := List.prefix_of_prefix_length_le hCd hq (by omega)
        have hdne : C.drop q ≠ [] := by
          intro hx
          have := congrArg List.length hx
          simp at this
          omega
        have hlast : (C.drop q).getLast? = some sep := by
          rw [← suffix_getLast? (List.drop_suffix q C) hdne]
          exact hC
        have hmem : sep ∈ C.drop q := by
          rcases List.getLast?_eq_some_iff.mp hlast with ⟨l', hl'⟩
          rw [hl']
          exact List.mem_append_right _ (by simp)
        exact hsep (hsub.subset hmem)
  · rintro (⟨q, hq⟩ | ⟨q, hq⟩)
    · rcases le_or_lt q C.length with hle | hlt
      · refine ⟨q, ?_⟩
        rw [List.drop_append_of_le_length hle]
        exact hq.trans (List.prefix_append _ _)
      · have hnil : C.drop q = [] := List.drop_eq_nil_of_le (by omega)
        rw [hnil] at hq
        have hpat : pat = [] := List.prefix_nil.mp hq
        subst hpat
        exact ⟨0, List.nil_prefix⟩
    · refine ⟨C.length + q, ?_⟩
      rw [← List.drop_drop, List.drop_left]
      exact hq

theorem splitOnNl_cons (c : Char) (t : List Char) :
    splitOnNl (c :: t) =
      match splitOnNl t with
      | [] => [[c]]
      | g :: gs => if c = '\n' then [] :: g :: gs else (c :: g) :: gs := rfl

theorem splitOnNl_ne_nil (s : List Char) : splitOnNl s ≠ [] := by
  cases s with
  | nil => simp [splitOnNl]
  | cons c t =>
    unfold splitOnNl
    cases h : splitOnNl t with
    | nil => simp
    | cons g gs =>
      show (if c = '\n' then [] :: g :: gs else (c :: g) :: gs) ≠ []
      split <;> simp

theorem joinNl_splitOnNl (s : List Char) : joinNl (splitOnNl s) = s := by
  induction s with
  | nil => rfl
  | cons c t ih =>
    unfold splitOnNl
    cases h : splitOnNl t with
    | nil => exact absurd h (splitOnNl_ne_nil t)
    | cons g gs =>
      rw [h] at ih
      show joinNl (if c = '\n' then [] :: g :: gs else (c :: g) :: gs) = c :: t
      by_cases hc : c = '\n'
      · rw [if_pos hc, hc]
        show ([] : List Char) ++ '\n' :: joinNl (g :: gs) = '\n' :: t
        simp [ih]
      · rw [if_neg hc]
        cases gs with
        | nil =>
          show c :: g = c :: t
          simp only [joinNl] at ih
          rw [ih]
        | cons g2 gs2 =>
          show (c :: g) ++ '\n' :: joinNl (g2 :: gs2) = c :: t
          rw [show joinNl (g :: g2 :: gs2) = g ++ '\n' :: joinNl (g2 :: gs2) from rfl] at ih
          simp [ih]

theorem splitOnNl_append_nlfree {A : List Char} (s : List Char) (hA : '\n' ∉ A) :
    splitOnNl (A ++ '\n' :: s) = A :: splitOnNl s := by
  induction A with
  | nil =>
    simp only [List.nil_append]
    rw [splitOnNl_cons]
    cases h : splitOnNl s with
    | nil => exact absurd h (splitOnNl_ne_nil s)
    | cons g gs =>
      show (if ('\n' : Char) = '\n' then [] :: g :: gs else ('\n' :: g) :: gs)
        = [] :: g :: gs
      rw [if_pos rfl]
  | cons a A' ih =>
    have ha : a ≠ '\n' := by
      intro h
      exact hA (by simp [h])
    have hA' : '\n' ∉ A' := fun h => hA (by simp [h])
    simp only [List.cons_append]
    rw [splitOnNl_cons, ih hA']
    show (if a = '\n' then [] :: A' :: splitOnNl s else (a :: A') :: splitOnNl s)
      = (a :: A') :: splitOnNl s
    rw [if_neg ha]

theorem findIdx?_cons_true {p : List Char → Bool} {x : List Char} {xs : List (List Char)}
    (h : p x = true) : List.findIdx? p (x :: xs) = some 0 := by
  rw [List.findIdx?_cons, if_pos h]

theorem eatLit_eq_some {pat s r : List Char} (h : eatLit pat s = some r) :
    s = pat ++ r := by
  unfold eatLit at h
  split at h
  · rename_i hp
    rw [List.isPrefixOf_iff_prefix] at hp
    obtain ⟨r', rfl⟩ := hp
    rw [List.drop_left] at h
    obtain rfl := Option.some.inj h
    rfl
  · simp at h

theorem eatPlus_length {p : Char → Bool} {s r : List Char}
    (h : eatPlus p s = some r) : r.length < s.length := by
  cases s with
  | nil => simp [eatPlus] at h
  | cons c t =>
    have h' : eatPlus p (c :: t) = if p c = true then some (t.dropWhile p) else none := rfl
    rw [h'] at h
    split at h
    · obtain rfl := Option.some.inj h
      have := (List.dropWhile_suffix (l := t) p).length_le
      simp only [List.length_cons]
      omega
    · simp at h

theorem matchPrecisionLen_starts_psn {s : List Char} {n : Nat}
    (h : matchPrecisionLen s = some n) : ("precision".toList) <+: s := by
  unfold matchPrecisionLen at h
  cases hE : eatLit ("precision".toList) s with
  | none => rw [hE] at h; simp at h
  | some r1 =>
    rw [eatLit_eq_some hE]
    exact List.prefix_append _ _

theorem matchPrecisionLen_bounds {s : List Char} {n : Nat}
    (h : matchPrecisionLen s = some n) : 9 ≤ n ∧ n ≤ s.length := by
  unfold matchPrecisionLen at h
  cases hE : eatLit ("precision".toList) s with
  | none => rw [hE] at h; simp at h
  | some r1 =>
    rw [hE] at h
    simp only [Option.bind_eq_bind, Option.some_bind] at h
    cases h2 : eatPlus isJsSpace r1 with
    | none => rw [h2] at h; simp at h
    | some r2 =>
      rw [h2] at h
      simp only [Option.some_bind] at h
      cases h3 : eatPlus isWordChar r2 with
      | none => rw [h3] at h; simp at h
      | some r3 =>
        rw [h3] at h
        simp only [Option.some_bind] at h
        cases h4 : eatPlus isJsSpace r3 with
        | none => rw [h4] at h; simp at h
        | some r4 =>
          rw [h4] at h
          simp only [Option.some_bind] at h
          cases h5 : eatLit ("float".toList) r4 with
          | none => rw [h5] at h; simp at h
          | some r5 =>
            rw [h5] at h
            simp only [Option.some_bind] at h
            cases h7 : eatLit [';'] (r5.dropWhile isJsSpace) with
            | none => rw [h7] at h; simp at h
            | some r7 =>
              rw [h7] at h
              simp only [Option.map_some'] at h
              obtain rfl := (Option.some.inj h).symm
              have e1 : s.length = 9 + r1.length := by
                rw [eatLit_eq_some hE, List.length_append]
                have h9 : ("precision".toList).length = 9 := by decide
                omega
              have l2 : r2.length < r1.length := eatPlus_length h2
              have l3 : r3.length < r2.length := eatPlus_length h3
              have l4 : r4.length < r3.length := eatPlus_length h4
              have l5 : r5.length + 5 = r4.length := by
                rw [eatLit_eq_some h5, List.length_append]
                have h5l : ("float".toList).length = 5 := by decide
                omega
              have l6 : (r5.dropWhile isJsSpace).length ≤ r5.length :=
                (List.dropWhile_suffix (l := r5) isJsSpace).length_le
              have l7 : r7.length + 1 = (r5.dropWhile isJsSpace).length := by
                rw [eatLit_eq_some h7, List.length_append]
                simp only [List.length_cons, List.length_nil]
                omega
              omega

theorem matchPrecisionLen_default (u : List Char) :
    matchPrecisionLen ("precision mediump float;".toList ++ u) = some 24 := by
  unfold matchPrecisionLen
  rw [show eatLit ("precision".toList) ("precision mediump float;".toList ++ u)
    = some (" mediump float;".toList ++ u) from by rfl]
  rw [Option.some_bind]
  rw [show eatPlus isJsSpace (" mediump float;".toList ++ u)
    = some ("mediump float;".toList ++ u) from by rfl]
  rw [Option.some_bind]
  rw [show eatPlus isWordChar ("mediump float;".toList ++ u)
    = some (" float;".toList ++ u) from by rfl]
  rw [Option.some_bind]
  rw [show eatPlus isJsSpace (" float;".toList ++ u)
    = some ("float;".toList ++ u) from by rfl]
  rw [Option.some_bind]
  rw [show eatLit ("float".toList) ("float;".toList ++ u) = some (';' :: u) from by rfl]
  rw [Option.some_bind]
  rw [show List.dropWhile isJsSpace (';' :: u) = ';' :: u from by rfl]
  rw [show eatLit [';'] (';' :: u) = some u from by cases u <;> rfl]
  rw [Option.map_some']
  have hlen : ("precision mediump float;".toList).length = 24 := by decide
  rw [List.length_append, hlen]
  congr 1
  omega

theorem findPrecisionAux_cons_some {ch : Char} {t : List Char} {n : Nat}
    (h : matchPrecisionLen (ch :: t) = some n) :
    findPrecisionAux (ch :: t) = some (0, n) := by
  unfold findPrecisionAux
  rw [h]

theorem findPrecisionAux_default (u : List Char) :
    findPrecisionAux ("precision mediump float;".toList ++ u) = some (0, 24) := by
  have hcons : "precision mediump float;".toList ++ u
      = 'p' :: ("recision mediump float;".toList ++ u) := rfl
  rw [hcons]
  refine findPrecisionAux_cons_some ?_
  rw [← hcons]
  exact matchPrecisionLen_default u

theorem findPrecisionAux_drop {s : List Char} {p n : Nat}
    (h : findPrecisionAux s = some (p, n)) :
    matchPrecisionLen (s.drop p) = some n := by
  induction s generalizing p with
  | nil => simp [findPrecisionAux] at h
  | cons ch t ih =>
    unfold findPrecisionAux at h
    cases hm : matchPrecisionLen (ch :: t) with
    | some n' =>
      rw [hm] at h
      simp only [Option.some.injEq, Prod.mk.injEq] at h
      obtain ⟨h1, h2⟩ := h
      rw [← h1, ← h2]
      simpa using hm
    | none =>
      rw [hm] at h
      simp only [Option.map_eq_some'] at h
      obtain ⟨⟨p', n'⟩, hfa, heq⟩ := h
      simp only [Prod.mk.injEq] at heq
      obtain ⟨h1, h2⟩ := heq
      subst h2
      rw [← h1]
      simpa using ih hfa

theorem jsIncludes_of_findPrecision {s : List Char} {p n : Nat}
    (h : findPrecisionAux s = some (p, n)) :
    jsIncludes s precisionWord = true := by
  refine jsIncludes_iff_occ.mpr ⟨p, ?_⟩
  exact matchPrecisionLen_starts_psn (findPrecisionAux_drop h)

theorem jsIncludes_defaultPrecision_append (t pat : List Char)
    (hnl : '\n' ∉ pat) (hC : jsIncludes defaultPrecision pat = false) :
    jsIncludes (defaultPrecision ++ t) pat = jsIncludes t pat := by
  rw [jsIncludes_append_sep (by decide) hnl, hC]
  simp

/-- Pass-1 characterization for inputs whose trimmed text has no
`precision`: the repaired output is exactly the spec's normalized form
(default precision statement first, then the inserted-declaration block,
then the trimmed body). -/
theorem fix_no_precision (x : List Char)
    (h : jsIncludes (jsTrim x) precisionWord = false) :
    fixShaderIssues x = specNormalizedFragment x := by
  simp only [fixShaderIssues, specNormalizedFragment]
  rw [if_pos h]
  rw [jsIncludes_defaultPrecision_append (jsTrim x) timeId (by decide) (by decide),
    jsIncludes_defaultPrecision_append (jsTrim x) uniformTimeSig (by decide) (by decide),
    jsIncludes_defaultPrecision_append (jsTrim x) resolutionId (by decide) (by decide),
    jsIncludes_defaultPrecision_append (jsTrim x) uniformResolutionSig (by decide) (by decide),
    jsIncludes_defaultPrecision_append (jsTrim x) vNormalId (by decide) (by decide),
    jsIncludes_defaultPrecision_append (jsTrim x) varyingVNormalSig (by decide) (by decide),
    jsIncludes_defaultPrecision_append (jsTrim x) vPositionId (by decide) (by decide),
    jsIncludes_defaultPrecision_append (jsTrim x) varyingVPositionSig (by decide) (by decide)]
  generalize
    uniformDeclarationsOf
      (jsIncludes (jsTrim x) timeId && !jsIncludes (jsTrim x) uniformTimeSig)
      (jsIncludes (jsTrim x) resolutionId && !jsIncludes (jsTrim x) uniformResolutionSig)
      (jsIncludes (jsTrim x) vNormalId && !jsIncludes (jsTrim x) varyingVNormalSig)
      (jsIncludes (jsTrim x) vPositionId && !jsIncludes (jsTrim x) varyingVPositionSig) = d
  by_cases hbe : d.isEmpty = true
  · rw [if_pos hbe, if_pos hbe]
  · rw [if_neg hbe, if_neg hbe]
    have hsplit : splitOnNl (defaultPrecision ++ jsTrim x)
        = "precision mediump float;".toList :: splitOnNl (jsTrim x) := by
      rw [show defaultPrecision ++ jsTrim x
        = "precision mediump float;".toList ++ '\n' :: jsTrim x from rfl]
      exact splitOnNl_append_nlfree (jsTrim x) (by decide)
    rw [hsplit]
    rw [findIdx?_cons_true (by decide)]
    simp only [Option.elim]
    simp only [spliceInsert, zero_add, List.take_succ_cons, List.take_zero,
      List.drop_succ_cons, List.drop_zero, List.cons_append, List.nil_append]
    rw [show joinNl ("precision mediump float;".toList :: jsTrim d :: splitOnNl (jsTrim x))
      = "precision mediump float;".toList ++ '\n' :: joinNl (jsTrim d :: splitOnNl (jsTrim x))
      from rfl]
    have hJoin : joinNl (jsTrim d :: splitOnNl (jsTrim x)) = jsTrim d ++ '\n' :: jsTrim x := by
      cases hsp : splitOnNl (jsTrim x) with
      | nil => exact absurd hsp (splitOnNl_ne_nil _)
      | cons g gs =>
        show jsTrim d ++ '\n' :: joinNl (g :: gs) = jsTrim d ++ '\n' :: jsTrim x
        rw [← hsp, joinNl_splitOnNl]
    rw [hJoin]
    rfl

/-- Branch-2 characterization: when the trimmed input contains `precision`
text and the pattern matches at (p, n), and the relocated text needs no
declaration insertions, the output is exactly the relocated form. -/
theorem fixShaderIssues_relocate_no_insert (x : List Char) (p n : Nat)
    (hpre : jsIncludes (jsTrim x) precisionWord = true)
    (hfind : findPrecisionAux (jsTrim x) = some (p, n))
    (h1 : (jsIncludes (((jsTrim x).drop p).take n ++ '\n' ::
        jsTrim (replaceFirstEmpty (jsTrim x) (((jsTrim x).drop p).take n))) timeId &&
      !jsIncludes (((jsTrim x).drop p).take n ++ '\n' ::
        jsTrim (replaceFirstEmpty (jsTrim x) (((jsTrim x).drop p).take n))) uniformTimeSig) = false)
    (h2 : (jsIncludes (((jsTrim x).drop p).take n ++ '\n' ::
        jsTrim (replaceFirstEmpty (jsTrim x) (((jsTrim x).drop p).take n))) resolutionId &&
      !jsIncludes (((jsTrim x).drop p).take n ++ '\n' ::
        jsTrim (replaceFirstEmpty (jsTrim x) (((jsTrim x).drop p).take n))) uniformResolutionSig) = false)
    (h3 : (jsIncludes (((jsTrim x).drop p).take n ++ '\n' ::
        jsTrim (replaceFirstEmpty (jsTrim x) (((jsTrim x).drop p).take n))) vNormalId &&
      !jsIncludes (((jsTrim x).drop p).take n ++ '\n' ::
        jsTrim (replaceFirstEmpty (jsTrim x) (((jsTrim x).drop p).take n))) varyingVNormalSig) = false)
    (h4 : (jsIncludes (((jsTrim x).drop p).take n ++ '\n' ::
        jsTrim (replaceFirstEmpty (jsTrim x) (((jsTrim x).drop p).take n))) vPositionId &&
      !jsIncludes (((jsTrim x).drop p).take n ++ '\n' ::
        jsTrim (replaceFirstEmpty (jsTrim x) (((jsTrim x).drop p).take n))) varyingVPositionSig) = false) :
    fixShaderIssues x = ((jsTrim x).drop p).take n ++ '\n' ::
      jsTrim (replaceFirstEmpty (jsTrim x) (((jsTrim x).drop p).take n)) := by
  simp only [fixShaderIssues]
  rw [if_neg (show ¬(jsIncludes (jsTrim x) precisionWord = false) from by simp [hpre])]
  rw [hfind]
  simp only [Option.elim]
  simp only [h1, h2, h3, h4]
  simp [uniformDeclarationsOf]

/-- An empty inserted-declaration block means all four needs-flags are
false. -/
theorem uniformDeclarationsOf_isEmpty_flags : ∀ b1 b2 b3 b4 : Bool,
    (uniformDeclarationsOf b1 b2 b3 b4).isEmpty = true →
    b1 = false ∧ b2 = false ∧ b3 = false ∧ b4 = false := by decide

/-- A nonempty inserted-declaration block stays nonempty after trimming. -/
theorem uniformDeclarationsOf_trim_ne : ∀ b1 b2 b3 b4 : Bool,
    (uniformDeclarationsOf b1 b2 b3 b4).isEmpty = false →
    jsTrim (uniformDeclarationsOf b1 b2 b3 b4) ≠ [] := by decide

set_option maxRecDepth 4096 in
/-- Identifier and signature occurrences in the default-precision header
followed by a trimmed declaration block and a newline are exactly the flags
that selected the block declarations. -/
theorem declBlock_includes : ∀ b1 b2 b3 b4 : Bool,
    jsIncludes (defaultPrecision ++ jsTrim (uniformDeclarationsOf b1 b2 b3 b4) ++ ['\n']) timeId = b1 ∧
    jsIncludes (defaultPrecision ++ jsTrim (uniformDeclarationsOf b1 b2 b3 b4) ++ ['\n']) uniformTimeSig = b1 ∧
    jsIncludes (defaultPrecision ++ jsTrim (uniformDeclarationsOf b1 b2 b3 b4) ++ ['\n']) resolutionId = b2 ∧
    jsIncludes (defaultPrecision ++ jsTrim (uniformDeclarationsOf b1 b2 b3 b4) ++ ['\n']) uniformResolutionSig = b2 ∧
    jsIncludes (defaultPrecision ++ jsTrim (uniformDeclarationsOf b1 b2 b3 b4) ++ ['\n']) vNormalId = b3 ∧
    jsIncludes (defaultPrecision ++ jsTrim (uniformDeclarationsOf b1 b2 b3 b4) ++ ['\n']) varyingVNormalSig = b3 ∧
    jsIncludes (defaultPrecision ++ jsTrim (uniformDeclarationsOf b1 b2 b3 b4) ++ ['\n']) vPositionId = b4 ∧
    jsIncludes (defaultPrecision ++ jsTrim (uniformDeclarationsOf b1 b2 b3 b4) ++ ['\n']) varyingVPositionSig = b4 := by
  decide

/-- Recomputing a needs-flag on text whose header already realises the flag
yields false. -/
theorem needs_flag_absorb : ∀ ct cut : Bool,
    (((ct && !cut) || ct) && !((ct && !cut) || cut)) = false := by decide

/-- A text of the form default-precision header followed by a body that is
nonempty, starts and ends with non-whitespace, and triggers no declaration
insertion, is a fixpoint of the shader repair pass. -/
theorem fix_default_prefix (u : List Char)
    (hh : ∀ c ∈ u.head?, isJsSpace c = false)
    (hl : ∀ c ∈ u.getLast?, isJsSpace c = false)
    (hne : u ≠ [])
    (f1 : (jsIncludes (defaultPrecision ++ u) timeId &&
      !jsIncludes (defaultPrecision ++ u) uniformTimeSig) = false)
    (f2 : (jsIncludes (defaultPrecision ++ u) resolutionId &&
      !jsIncludes (defaultPrecision ++ u) uniformResolutionSig) = false)
    (f3 : (jsIncludes (defaultPrecision ++ u) vNormalId &&
      !jsIncludes (defaultPrecision ++ u) varyingVNormalSig) = false)
    (f4 : (jsIncludes (defaultPrecision ++ u) vPositionId &&
      !jsIncludes (defaultPrecision ++ u) varyingVPositionSig) = false) :
    fixShaderIssues (defaultPrecision ++ u) = defaultPrecision ++ u := by
  have htr : jsTrim (defaultPrecision ++ u) = defaultPrecision ++ u := by
    refine jsTrim_fix ?_ ?_
    · intro c hc
      rw [show (defaultPrecision ++ u).head? = some 'p' from rfl] at hc
      simp at hc
      subst hc
      decide
    · intro c hc
      rw [suffix_getLast? ⟨defaultPrecision, rfl⟩ hne] at hc
      exact hl c hc
  have hpre : jsIncludes (jsTrim (defaultPrecision ++ u)) precisionWord = true := by
    rw [htr]
    exact jsIncludes_of_prefix ⟨" mediump float;\n".toList ++ u, rfl⟩
  have hfind : findPrecisionAux (jsTrim (defaultPrecision ++ u)) = some (0, 24) := by
    rw [htr]
    exact findPrecisionAux_default ('\n' :: u)
  have hstmt : ((jsTrim (defaultPrecision ++ u)).drop 0).take 24
      = "precision mediump float;".toList := by
    rw [htr]
    rfl
  have hrem : replaceFirstEmpty (jsTrim (defaultPrecision ++ u))
      "precision mediump float;".toList = '\n' :: u := by
    rw [htr]
    rfl
  have htrim2 : jsTrim ('\n' :: u) = u := by
    rw [jsTrim_cons_space (by decide)]
    exact jsTrim_fix hh hl
  have hF : "precision mediump float;".toList ++ '\n' :: u = defaultPrecision ++ u := rfl
  have hkey := fixShaderIssues_relocate_no_insert (defaultPrecision ++ u) 0 24 hpre hfind
    (by rw [hstmt, hrem, htrim2, hF]; exact f1)
    (by rw [hstmt, hrem, htrim2, hF]; exact f2)
    (by rw [hstmt, hrem, htrim2, hF]; exact f3)
    (by rw [hstmt, hrem, htrim2, hF]; exact f4)
  rw [hkey, hstmt, hrem, htrim2]
  exact hF

/-- A text of the form default-precision header, declaration block `D`,
newline, body `t` is a fixpoint of the shader repair pass when the
recomputed needs-flags are all false. -/
theorem fix_spec_shape (t D : List Char)
    (htl : ∀ c ∈ t.getLast?, isJsSpace c = false)
    (htne : t ≠ [])
    (hDne : D ≠ [])
    (hDh : ∀ c ∈ D.head?, isJsSpace c = false)
    (f1 : (jsIncludes (defaultPrecision ++ (D ++ '\n' :: t)) timeId &&
      !jsIncludes (defaultPrecision ++ (D ++ '\n' :: t)) uniformTimeSig) = false)
    (f2 : (jsIncludes (defaultPrecision ++ (D ++ '\n' :: t)) resolutionId &&
      !jsIncludes (defaultPrecision ++ (D ++ '\n' :: t)) uniformResolutionSig) = false)
    (f3 : (jsIncludes (defaultPrecision ++ (D ++ '\n' :: t)) vNormalId &&
      !jsIncludes (defaultPrecision ++ (D ++ '\n' :: t)) varyingVNormalSig) = false)
    (f4 : (jsIncludes (defaultPrecision ++ (D ++ '\n' :: t)) vPositionId &&
      !jsIncludes (defaultPrecision ++ (D ++ '\n' :: t)) varyingVPositionSig) = false) :
    fixShaderIssues (defaultPrecision ++ (D ++ '\n' :: t))
      = defaultPrecision ++ (D ++ '\n' :: t) := by
  refine fix_default_prefix (D ++ '\n' :: t) ?_ ?_ (by simp) f1 f2 f3 f4
  · intro c hc
    obtain ⟨d0, Dt, hD⟩ := List.exists_cons_of_ne_nil hDne
    rw [hD] at hc
    simp only [List.cons_append, List.head?_cons] at hc
    simp at hc
    subst hc
    refine hDh d0 ?_
    rw [hD]
    rfl
  · intro c hc
    rw [suffix_getLast? ⟨D ++ ['\n'], by simp⟩ htne] at hc
    exact htl c hc

/-- Pass-2 fixpoint: the spec's normalized fragment form is unchanged by a
further repair pass. -/
theorem fix_spec_fixpoint (x : List Char) :
    fixShaderIssues (specNormalizedFragment x) = specNormalizedFragment x := by
  by_cases hbe : (uniformDeclarationsOf
      (jsIncludes (jsTrim x) timeId && !jsIncludes (jsTrim x) uniformTimeSig)
      (jsIncludes (jsTrim x) resolutionId && !jsIncludes (jsTrim x) uniformResolutionSig)
      (jsIncludes (jsTrim x) vNormalId && !jsIncludes (jsTrim x) varyingVNormalSig)
      (jsIncludes (jsTrim x) vPositionId && !jsIncludes (jsTrim x) varyingVPositionSig)).isEmpty = true
  · have hy : specNormalizedFragment x = defaultPrecision ++ jsTrim x := by
      simp only [specNormalizedFragment]
      rw [if_pos hbe]
    obtain ⟨hb1, hb2, hb3, hb4⟩ := uniformDeclarationsOf_isEmpty_flags _ _ _ _ hbe
    rw [hy]
    by_cases htnil : jsTrim x = []
    · rw [htnil]
      decide
    · refine fix_default_prefix (jsTrim x) (jsTrim_head x) (jsTrim_last x) htnil ?_ ?_ ?_ ?_
      · rw [jsIncludes_defaultPrecision_append (jsTrim x) timeId (by decide) (by decide),
          jsIncludes_defaultPrecision_append (jsTrim x) uniformTimeSig (by decide) (by decide)]
        exact hb1
      · rw [jsIncludes_defaultPrecision_append (jsTrim x) resolutionId (by decide) (by decide),
          jsIncludes_defaultPrecision_append (jsTrim x) uniformResolutionSig (by decide) (by decide)]
        exact hb2
      · rw [jsIncludes_defaultPrecision_append (jsTrim x) vNormalId (by decide) (by decide),
          jsIncludes_defaultPrecision_append (jsTrim x) varyingVNormalSig (by decide) (by decide)]
        exact hb3
      · rw [jsIncludes_defaultPrecision_append (jsTrim x) vPositionId (by decide) (by decide),
          jsIncludes_defaultPrecision_append (jsTrim x) varyingVPositionSig (by decide) (by decide)]
        exact hb4
  · have hbe' := Bool.eq_false_iff.mpr hbe
    have htne : jsTrim x ≠ [] := by
      intro h0
      rw [h0] at hbe'
      exact absurd hbe' (by decide)
    have hDne : jsTrim (uniformDeclarationsOf
      (jsIncludes (jsTrim x) timeId && !jsIncludes (jsTrim x) uniformTimeSig)
      (jsIncludes (jsTrim x) resolutionId && !jsIncludes (jsTrim x) uniformResolutionSig)
      (jsIncludes (jsTrim x) vNormalId && !jsIncludes (jsTrim x) varyingVNormalSig)
      (jsIncludes (jsTrim x) vPositionId && !jsIncludes (jsTrim x) varyingVPositionSig)) ≠ [] :=
      uniformDeclarationsOf_trim_ne _ _ _ _ hbe'
    have hy : specNormalizedFragment x
        = defaultPrecision ++ (jsTrim (uniformDeclarationsOf
      (jsIncludes (jsTrim x) timeId && !jsIncludes (jsTrim x) uniformTimeSig)
      (jsIncludes (jsTrim x) resolutionId && !jsIncludes (jsTrim x) uniformResolutionSig)
      (jsIncludes (jsTrim x) vNormalId && !jsIncludes (jsTrim x) varyingVNormalSig)
      (jsIncludes (jsTrim x) vPositionId && !jsIncludes (jsTrim x) varyingVPositionSig)) ++ '\n' :: jsTrim x) := by
      simp only [specNormalizedFragment]
      rw [if_neg hbe]
      rw [List.append_assoc]
    rw [hy]
    obtain ⟨j1, j2, j3, j4, j5, j6, j7, j8⟩ := declBlock_includes
      (jsIncludes (jsTrim x) timeId && !jsIncludes (jsTrim x) uniformTimeSig)
      (jsIncludes (jsTrim x) resolutionId && !jsIncludes (jsTrim x) uniformResolutionSig)
      (jsIncludes (jsTrim x) vNormalId && !jsIncludes (jsTrim x) varyingVNormalSig)
      (jsIncludes (jsTrim x) vPositionId && !jsIncludes (jsTrim x) varyingVPositionSig)
    have hCy : (defaultPrecision ++ jsTrim (uniformDeclarationsOf
        (jsIncludes (jsTrim x) timeId && !jsIncludes (jsTrim x) uniformTimeSig)
        (jsIncludes (jsTrim x) resolutionId && !jsIncludes (jsTrim x) uniformResolutionSig)
        (jsIncludes (jsTrim x) vNormalId && !jsIncludes (jsTrim x) varyingVNormalSig)
        (jsIncludes (jsTrim x) vPositionId && !jsIncludes (jsTrim x) varyingVPositionSig)) ++ ['\n']).getLast? = some '\n' := by
      rw [suffix_getLast? ⟨defaultPrecision ++ jsTrim (uniformDeclarationsOf
      (jsIncludes (jsTrim x) timeId && !jsIncludes (jsTrim x) uniformTimeSig)
      (jsIncludes (jsTrim x) resolutionId && !jsIncludes (jsTrim x) uniformResolutionSig)
      (jsIncludes (jsTrim x) vNormalId && !jsIncludes (jsTrim x) varyingVNormalSig)
      (jsIncludes (jsTrim x) vPositionId && !jsIncludes (jsTrim x) varyingVPositionSig)), rfl⟩ (by decide)]
      decide
    have hre : defaultPrecision ++ (jsTrim (uniformDeclarationsOf
      (jsIncludes (jsTrim x) timeId && !jsIncludes (jsTrim x) uniformTimeSig)
      (jsIncludes (jsTrim x) resolutionId && !jsIncludes (jsTrim x) uniformResolutionSig)
      (jsIncludes (jsTrim x) vNormalId && !jsIncludes (jsTrim x) varyingVNormalSig)
      (jsIncludes (jsTrim x) vPositionId && !jsIncludes (jsTrim x) varyingVPositionSig)) ++ '\n' :: jsTrim x)
        = (defaultPrecision ++ jsTrim (uniformDeclarationsOf
        (jsIncludes (jsTrim x) timeId && !jsIncludes (jsTrim x) uniformTimeSig)
        (jsIncludes (jsTrim x) resolutionId && !jsIncludes (jsTrim x) uniformResolutionSig)
        (jsIncludes (jsTrim x) vNormalId && !jsIncludes (jsTrim x) varyingVNormalSig)
        (jsIncludes (jsTrim x) vPositionId && !jsIncludes (jsTrim x) varyingVPositionSig)) ++ ['\n']) ++ jsTrim x := by
      simp [List.append_assoc]
    refine fix_spec_shape (jsTrim x) (jsTrim (uniformDeclarationsOf
      (jsIncludes (jsTrim x) timeId && !jsIncludes (jsTrim x) uniformTimeSig)
      (jsIncludes (jsTrim x) resolutionId && !jsIncludes (jsTrim x) uniformResolutionSig)
      (jsIncludes (jsTrim x) vNormalId && !jsIncludes (jsTrim x) varyingVNormalSig)
      (jsIncludes (jsTrim x) vPositionId && !jsIncludes (jsTrim x) varyingVPositionSig)))
      (jsTrim_last x) htne hDne (jsTrim_head _) ?_ ?_ ?_ ?_
    · rw [hre, jsIncludes_append_sep hCy (by decide), jsIncludes_append_sep hCy (by decide),
        j1, j2]
      exact needs_flag_absorb _ _
    · rw [hre, jsIncludes_append_sep hCy (by decide), jsIncludes_append_sep hCy (by decide),
        j3, j4]
      exact needs_flag_absorb _ _
    · rw [hre, jsIncludes_append_sep hCy (by decide), jsIncludes_append_sep hCy (by decide),
        j5, j6]
      exact needs_flag_absorb _ _
    · rw [hre, jsIncludes_append_sep hCy (by decide), jsIncludes_append_sep hCy (by decide),
        j7, j8]
      exact needs_flag_absorb _ _

/-- `jsIncludes` transfers along trimming: no occurrence in `x` means no
occurrence in `jsTrim x`. -/
theorem jsIncludes_jsTrim_false {x pat : List Char}
    (h : jsIncludes x pat = false) : jsIncludes (jsTrim x) pat = false := by
  cases hx : jsIncludes (jsTrim x) pat with
  | false => rfl
  | true => exact absurd (jsIncludes_infix_mono (jsTrim_infix_self x) hx) (by simp [h])

/-- `join("\n")` on a two-or-more-line list starts with the first line and a
newline. -/
theorem joinNl_cons_cons (g h : List Char) (gs : List (List Char)) :
    joinNl (g :: h :: gs) = g ++ '\n' :: joinNl (h :: gs) := rfl

/-- A list followed by a newline is a prefix of the same list followed by a
newline and anything. -/
theorem prefix_append_nl (a z : List Char) :
    (a ++ ['\n']) <+: a ++ '\n' :: z := ⟨z, by simp⟩

/-- When the precision pattern matches the trimmed input at `(p, n)` and the
matched statement has no inner newline, the statement followed by a newline
survives as a prefix of the repair output. -/
theorem fix_match_prefix_survives (x : List Char) (p n : Nat)
    (hfind : findPrecisionAux (jsTrim x) = some (p, n))
    (hnl : '\n' ∉ ((jsTrim x).drop p).take n) :
    (((jsTrim x).drop p).take n ++ ['\n']) <+: fixShaderIssues x := by
  have hpre : jsIncludes (jsTrim x) precisionWord = true := jsIncludes_of_findPrecision hfind
  have hM := findPrecisionAux_drop hfind
  obtain ⟨hb1, hb2⟩ := matchPrecisionLen_bounds hM
  have hstmtpre : jsIncludes (((jsTrim x).drop p).take n) precisionWord = true := by
    refine jsIncludes_of_prefix (List.prefix_take_iff.mpr ⟨matchPrecisionLen_starts_psn hM, ?_⟩)
    have h9 : precisionWord.length = 9 := by decide
    omega
  simp only [fixShaderIssues]
  rw [if_neg (show ¬(jsIncludes (jsTrim x) precisionWord = false) from by simp [hpre])]
  rw [hfind]
  simp only [Option.elim]
  split
  · exact prefix_append_nl _ _
  · rw [splitOnNl_append_nlfree _ hnl]
    rw [findIdx?_cons_true (p := fun line => jsIncludes line precisionWord) hstmtpre]
    simp only [Option.elim]
    simp only [spliceInsert, zero_add, List.take_succ_cons, List.take_zero,
      List.drop_succ_cons, List.drop_zero, List.cons_append, List.nil_append]
    rw [joinNl_cons_cons]
    exact prefix_append_nl _ _

/-- A trim-fixed input of the shape single-line precision statement,
newline, trim-fixed body whose recomputed needs-flags are all false is
returned unchanged by the repair pass. -/
theorem fix_wellformed_unchanged (z T r : List Char)
    (hz : z = T ++ '\n' :: r)
    (htr : jsTrim z = z)
    (hfind : findPrecisionAux z = some (0, T.length))
    (hrtrim : jsTrim r = r)
    (f1 : (jsIncludes z timeId && !jsIncludes z uniformTimeSig) = false)
    (f2 : (jsIncludes z resolutionId && !jsIncludes z uniformResolutionSig) = false)
    (f3 : (jsIncludes z vNormalId && !jsIncludes z varyingVNormalSig) = false)
    (f4 : (jsIncludes z vPositionId && !jsIncludes z varyingVPositionSig) = false) :
    fixShaderIssues z = z := by
  have hpre : jsIncludes (jsTrim z) precisionWord = true := by
    rw [htr]
    exact jsIncludes_of_findPrecision hfind
  have hstmt : ((jsTrim z).drop 0).take T.length = T := by
    rw [htr, hz, List.drop_zero]
    exact List.take_left T ('\n' :: r)
  have hrem : replaceFirstEmpty (jsTrim z) T = '\n' :: r := by
    rw [htr, hz]
    exact replaceFirstEmpty_of_prefix T ('\n' :: r)
  have htrim2 : jsTrim ('\n' :: r) = r := by
    rw [jsTrim_cons_space (by decide)]
    exact hrtrim
  have hkey := fixShaderIssues_relocate_no_insert z 0 T.length hpre
    (by rw [htr]; exact hfind)
    (by rw [hstmt, hrem, htrim2, ← hz]; exact f1)
    (by rw [hstmt, hrem, htrim2, ← hz]; exact f2)
    (by rw [hstmt, hrem, htrim2, ← hz]; exact f3)
    (by rw [hstmt, hrem, htrim2, ← hz]; exact f4)
  rw [hkey, hstmt, hrem, htrim2, ← hz]

/-- C3 (amended): the repair pass `fixShaderIssues` is idempotent on every
input that contains no `precision` text.  On general inputs idempotence
fails: see the counterexample `repair_not_idempotent_cex`. -/
theorem fixShaderIssues_idempotent_no_precision (x : List Char)
    (h : jsIncludes x precisionWord = false) :
    fixShaderIssues (fixShaderIssues x) = fixShaderIssues x := by
  rw [fix_no_precision x (jsIncludes_jsTrim_false h), fix_spec_fixpoint]

theorem fixShaderIssues_idempotent_no_precision_witness :
    jsIncludes "void main() resolution".toList precisionWord = false ∧
    fixShaderIssues (fixShaderIssues "void main() resolution".toList)
      = fixShaderIssues "void main() resolution".toList :=
  ⟨by decide, fixShaderIssues_idempotent_no_precision _ (by decide)⟩

/-- C3 counterexample: on an input whose first precision statement spans two
lines and which contains a second precision statement, running the repair
pass twice differs from running it once (the declaration insertion of the
first pass splits the relocated statement, so the second pass relocates the
other statement). -/
theorem repair_not_idempotent_cex :
    fixShaderIssues
        (fixShaderIssues "precision\nmediump float; precision highp float; time".toList)
      ≠ fixShaderIssues "precision\nmediump float; precision highp float; time".toList := by
  decide

/-- C4 (amended): (1) whenever the precision pattern matches the trimmed
input at `(p, n)` with no newline inside the match, the matched statement
followed by a newline survives as a prefix of the repair output; (2) a
trim-fixed input consisting of a single-line top-of-file precision
statement, a newline, and a trim-fixed body all of whose needs-flags are
false is returned unchanged.  The original claim fails on both counts for
statements with inner newlines and for space-separated well-formed inputs:
see `repair_removes_statement_cex`. -/
theorem fixShaderIssues_precision_preservation :
    (∀ x p n, findPrecisionAux (jsTrim x) = some (p, n) →
        '\n' ∉ ((jsTrim x).drop p).take n →
        (((jsTrim x).drop p).take n ++ ['\n']) <+: fixShaderIssues x) ∧
    (∀ z T r, z = T ++ '\n' :: r → jsTrim z = z →
        findPrecisionAux z = some (0, T.length) → jsTrim r = r →
        (jsIncludes z timeId && !jsIncludes z uniformTimeSig) = false →
        (jsIncludes z resolutionId && !jsIncludes z uniformResolutionSig) = false →
        (jsIncludes z vNormalId && !jsIncludes z varyingVNormalSig) = false →
        (jsIncludes z vPositionId && !jsIncludes z varyingVPositionSig) = false →
        fixShaderIssues z = z) :=
  ⟨fix_match_prefix_survives, fix_wellformed_unchanged⟩

theorem fixShaderIssues_precision_preservation_witness :
    ((((jsTrim "precision mediump float; time".toList).drop 0).take 24 ++ ['\n'])
        <+: fixShaderIssues "precision mediump float; time".toList) ∧
    fixShaderIssues "precision mediump float;\nvoid main()".toList
      = "precision mediump float;\nvoid main()".toList :=
  ⟨fixShaderIssues_precision_preservation.1 _ 0 24 (by decide) (by decide),
   fixShaderIssues_precision_preservation.2 _ "precision mediump float;".toList
     "void main()".toList rfl (by decide) (by decide) (by decide) (by decide) (by decide)
     (by decide) (by decide)⟩

/-- C4 counterexample: the first input has a valid (two-line) precision
statement, yet the repair output contains no matching statement at all; the
second input already has a top-of-file precision statement and uses no
recognised identifier, yet is not returned unchanged. -/
theorem repair_removes_statement_cex :
    (findPrecisionAux (jsTrim "precision\nmediump float; time".toList)).isSome = true ∧
    findPrecisionAux (fixShaderIssues "precision\nmediump float; time".toList) = none ∧
    findPrecisionAux "precision mediump float; x".toList = some (0, 24) ∧
    (jsIncludes "precision mediump float; x".toList timeId &&
      !jsIncludes "precision mediump float; x".toList uniformTimeSig) = false ∧
    (jsIncludes "precision mediump float; x".toList resolutionId &&
      !jsIncludes "precision mediump float; x".toList uniformResolutionSig) = false ∧
    (jsIncludes "precision mediump float; x".toList vNormalId &&
      !jsIncludes "precision mediump float; x".toList varyingVNormalSig) = false ∧
    (jsIncludes "precision mediump float; x".toList vPositionId &&
      !jsIncludes "precision mediump float; x".toList varyingVPositionSig) = false ∧
    fixShaderIssues "precision mediump float; x".toList
      ≠ "precision mediump float; x".toList := by
  refine ⟨by decide, by decide, by decide, by decide, by decide, by decide, by decide, by decide⟩

/-- C5 (amended): for every input with no `precision` text the repair output
has exactly the spec's NormalizedFragmentSource shape — the default
precision statement first, then one declaration for each recognised
identifier occurring without its declaration, as a single block in the
fixed order time, resolution, vNormal, vPosition, then the trimmed body.
For inputs containing `precision` text the invariant fails: see
`repair_output_not_normalized_cex`. -/
theorem fixShaderIssues_normalized_no_precision (x : List Char)
    (h : jsIncludes x precisionWord = false) :
    fixShaderIssues x = specNormalizedFragment x :=
  fix_no_precision x (jsIncludes_jsTrim_false h)

theorem fixShaderIssues_normalized_no_precision_witness :
    jsIncludes "void main() time".toList precisionWord = false ∧
    fixShaderIssues "void main() time".toList
      = specNormalizedFragment "void main() time".toList :=
  ⟨by decide, fixShaderIssues_normalized_no_precision _ (by decide)⟩

/-- C5 counterexample: an input containing `precision` text that matches no
precision statement is returned unchanged, so the output's first statement
is not a precision statement — no position of the output matches one. -/
theorem repair_output_not_normalized_cex :
    fixShaderIssues "precisions".toList = "precisions".toList ∧
    findPrecisionAux "precisions".toList = none := by
  exact ⟨by decide, by decide⟩

end ShaderGen
